import Mathlib

/-!
Booking bot of the barber-shop admin panel.

A shallow embedding of the Instagram booking bot in `server.js`
(`logBot`, `sendInstagramMessage`, `parseBookingRequest`,
`processInstagramMessage`) and of the admin calendar in `bookings.js`
(`populateTimeSlots`, `renderCalendar`, `saveBooking`), together with the
JavaScript built-ins they rely on (`parseInt`, `String.prototype.toLowerCase`,
`includes`, `match`, `substr`, `Date.prototype.toISOString`, `==`).

Conventions of the embedding:

* a JavaScript string is a Lean `String`; where the code cuts a string by
  index (`substr`) the model works on its UTF-16 code units (`utf16`), and the
  fields that hold such a cut (`Booking.customer`, `LogEntry.message`) are
  lists of code units, which may contain half a surrogate pair;
* a JavaScript number is an integer or NaN (`JsNum`, with `none` for NaN);
* the JSON files under `data/` are fields of `World`; every file access and
  every reply is recorded in `World.trace`;
* `World.bookings` is a bookings file that holds an array of booking objects;
  `Json` and `processInstagramMessageRaw` take the file to be any JSON value,
  with the TypeError the code throws on some of them, and agree with the former
  on such arrays (`processRaw_of_bookings`);
* the clock, `Math.random` and the network are inputs, collected in `Oracle`.
-/

namespace BarberBot

/-! ## JavaScript values -/

/-- JavaScript number restricted to the integers, `none` standing for NaN. -/
abbrev JsNum := Option Int

/-- The values a JSON field read by the bot may hold: absent, a string, or an
integer-valued number (of magnitude below 10^21, where `Number::toString` is the
plain decimal numeral). -/
inductive JsVal where
  | undefined
  | str (s : String)
  | num (n : Int)
  deriving DecidableEq, Repr

/-- The relational operator `a < b` on numbers: false when either side is NaN. -/
def jsLt (a b : JsNum) : Bool :=
  match a, b with
  | some x, some y => decide (x < y)
  | _, _ => false

/-- The relational operator `a > b` on numbers. -/
def jsGt (a b : JsNum) : Bool := jsLt b a

/-- The relational operator `a <= b` on numbers: false when either side is NaN. -/
def jsLe (a b : JsNum) : Bool :=
  match a, b with
  | some x, some y => decide (x ≤ y)
  | _, _ => false

/-- The relational operator `a >= b` on numbers. -/
def jsGe (a b : JsNum) : Bool := jsLe b a

/-- Strict equality `a === b` on numbers: NaN is not equal to itself. -/
def jsStrictEq (a b : JsNum) : Bool :=
  match a, b with
  | some x, some y => decide (x = y)
  | _, _ => false

/-- Numeric addition `a + b`; NaN is absorbing. -/
def jsAdd (a b : JsNum) : JsNum :=
  match a, b with
  | some x, some y => some (x + y)
  | _, _ => none

/-- Numeric subtraction `a - b`; NaN is absorbing. -/
def jsSub (a b : JsNum) : JsNum :=
  match a, b with
  | some x, some y => some (x - y)
  | _, _ => none

/-- The string of a number, as `Number::toString` and template literals render it. -/
def numToString (a : JsNum) : String :=
  match a with
  | some x => toString x
  | none => "NaN"

/-- The abstract operation `ToString` on the values of `JsVal`. -/
def jsToString (v : JsVal) : String :=
  match v with
  | JsVal.undefined => "undefined"
  | JsVal.str s => s
  | JsVal.num n => toString n

/-! ## `parseInt` -/

/-- The characters `parseInt` strips from the start of its input: the
ECMAScript `WhiteSpace` and `LineTerminator` code points. -/
def isStrWhiteSpace (c : Char) : Bool :=
  let n := c.toNat
  n == 0x09 || n == 0x0A || n == 0x0B || n == 0x0C || n == 0x0D || n == 0x20 ||
  n == 0xA0 || n == 0x1680 || (0x2000 ≤ n && n ≤ 0x200A) || n == 0x2028 ||
  n == 0x2029 || n == 0x202F || n == 0x205F || n == 0x3000 || n == 0xFEFF

/-- The value of a character as a digit of some radix up to 36, if it is one. -/
def digitValue (c : Char) : Option Nat :=
  let n := c.toNat
  if 48 ≤ n ∧ n ≤ 57 then some (n - 48)
  else if 97 ≤ n ∧ n ≤ 122 then some (n - 87)
  else if 65 ≤ n ∧ n ≤ 90 then some (n - 55)
  else none

/-- Reads the longest prefix of radix-`radix` digits; `acc` is the value read so
far (`none` while no digit has been read). -/
def readDigits (radix : Nat) : List Char → Option Nat → Option Nat
  | [], acc => acc
  | c :: cs, acc =>
    match digitValue c with
    | some d =>
      if d < radix then readDigits radix cs (some (acc.getD 0 * radix + d)) else acc
    | none => acc

/-- The built-in `parseInt(string)` with no radix argument, on the characters of
its (already stringified) input: leading white space is dropped, then an optional
sign, then an optional `0x`/`0X` prefix selecting radix 16; the result is NaN
when no digit follows. -/
def parseIntChars (s : List Char) : JsNum :=
  let s := s.dropWhile isStrWhiteSpace
  let signed : Bool × List Char :=
    match s with
    | '-' :: r => (true, r)
    | '+' :: r => (false, r)
    | _ => (false, s)
  let based : Nat × List Char :=
    match signed.2 with
    | '0' :: 'x' :: r => (16, r)
    | '0' :: 'X' :: r => (16, r)
    | r => (10, r)
  match readDigits based.1 based.2 none with
  | none => none
  | some n => some (if signed.1 then -(n : Int) else (n : Int))

/-- The call `parseInt(v)`: the input is first converted to a string. -/
def parseInt (v : JsVal) : JsNum := parseIntChars (jsToString v).toList

/-! ## String built-ins -/

/-- Lower-casing of one character. Besides the ASCII capitals, the only
characters whose lower case contains an ASCII letter are U+212A (Kelvin sign)
and U+0130; every other character outside ASCII lower-cases to characters
outside ASCII, which the bot never inspects, and is left as it is. -/
def lowerChar (c : Char) : List Char :=
  if 65 ≤ c.toNat ∧ c.toNat ≤ 90 then [Char.ofNat (c.toNat + 32)]
  else if c.toNat = 0x212A then ['k']
  else if c.toNat = 0x130 then ['i', Char.ofNat 0x307]
  else [c]

/-- The method `String.prototype.toLowerCase`. -/
def toLowerCase (s : String) : String := String.mk (s.toList.flatMap lowerChar)

/-- Whether `p` occurs in `s` as a contiguous run, on character lists. -/
def includesChars : List Char → List Char → Bool
  | [], p => p.isEmpty
  | c :: cs, p => p.isPrefixOf (c :: cs) || includesChars cs p

/-- The method `String.prototype.includes`. -/
def includes (s p : String) : Bool := includesChars s.toList p.toList

/-- A JavaScript string as the sequence of its UTF-16 code units. -/
abbrev Utf16 := List Nat

/-- The UTF-16 code units of a character: the character itself in the Basic
Multilingual Plane, a pair of surrogates above it. -/
def charUnits (c : Char) : Utf16 :=
  if c.toNat < 0x10000 then [c.toNat]
  else [0xD800 + (c.toNat - 0x10000) / 0x400, 0xDC00 + (c.toNat - 0x10000) % 0x400]

/-- The UTF-16 code units of a string. -/
def utf16 (s : String) : Utf16 := s.toList.flatMap charUnits

/-- The call `s.substr(0, n)`: the first `n` UTF-16 code units of `s`; a
surrogate pair that straddles the cut leaves its first half. -/
def substr0 (s : String) (n : Nat) : Utf16 := (utf16 s).take n

/-! ## The hour pattern -/

/-- A match of `/(\d{1,2})(:00)? ?(am|pm)?/`: its three capture groups. -/
structure TimeMatch where
  /-- Group 1, `(\d{1,2})`. -/
  digits : String
  /-- Group 2, `(:00)?`. -/
  minutes : Option String
  /-- Group 3, `(am|pm)?`. -/
  meridiem : Option String
  deriving DecidableEq, Repr

/-- The class `\d`: the ASCII digits. -/
def isDigit (c : Char) : Bool := 48 ≤ c.toNat && c.toNat ≤ 57

/-- Attempt to match the pattern at the start of `s`. Every part after the first
digit is optional and greedy, so the attempt succeeds exactly when `s` starts
with a digit and no backtracking changes the groups. -/
def matchAt (s : List Char) : Option TimeMatch :=
  match s with
  | [] => none
  | d1 :: rest =>
    if isDigit d1 then
      let g1 : List Char × List Char :=
        match rest with
        | d2 :: rest2 => if isDigit d2 then ([d1, d2], rest2) else ([d1], rest)
        | [] => ([d1], [])
      let g2 : Option String × List Char :=
        match g1.2 with
        | ':' :: '0' :: '0' :: r => (some ":00", r)
        | r => (none, r)
      let afterSpace : List Char :=
        match g2.2 with
        | ' ' :: r => r
        | r => r
      let g3 : Option String :=
        match afterSpace with
        | 'a' :: 'm' :: _ => some "am"
        | 'p' :: 'm' :: _ => some "pm"
        | _ => none
      some { digits := String.mk g1.1, minutes := g2.1, meridiem := g3 }
    else none

/-- Leftmost match of the pattern in `s`, on character lists. -/
def matchChars : List Char → Option TimeMatch
  | [] => none
  | c :: cs =>
    match matchAt (c :: cs) with
    | some m => some m
    | none => matchChars cs

/-- The call `text.match(/(\d{1,2})(:00)? ?(am|pm)?/)`. -/
def timeMatch (text : String) : Option TimeMatch := matchChars text.toList

/-! ## `Date` -/

/-- Milliseconds in a day, `msPerDay`. -/
def msPerDay : Nat := 86400000

/-- The proleptic Gregorian date (year, month, day of month) of a day number
counted from 1 January 1970, which `YearFromTime`, `MonthFromTime` and
`DateFromTime` define. -/
def civilFromDays (days : Nat) : Nat × Nat × Nat :=
  let z := days + 719468
  let era := z / 146097
  let doe := z % 146097
  let yoe := (doe - doe / 1460 + doe / 36524 - doe / 146096) / 365
  let y := yoe + era * 400
  let doy := doe - (365 * yoe + yoe / 4 - yoe / 100)
  let mp := (5 * doy + 2) / 153
  let d := doy - (153 * mp + 2) / 5 + 1
  let m := if mp < 10 then mp + 3 else mp - 9
  (if m ≤ 2 then y + 1 else y, m, d)

/-- Decimal numeral of `n`, padded with zeros on the left to `width` digits. -/
def padLeft (width n : Nat) : String :=
  let digits := toString n
  String.mk (List.replicate (width - digits.length) '0') ++ digits

/-- The year of an ISO string: four digits, or a sign and six digits beyond 9999. -/
def isoYear (y : Nat) : String :=
  if y ≤ 9999 then padLeft 4 y else "+" ++ padLeft 6 y

/-- The method `Date.prototype.toISOString` of the date whose time value is `t`
milliseconds after the epoch: `YYYY-MM-DDTHH:mm:ss.sssZ` in UTC. -/
def toISOString (t : Nat) : String :=
  let date := civilFromDays (t / msPerDay)
  let ms := t % msPerDay
  isoYear date.1 ++ "-" ++ padLeft 2 date.2.1 ++ "-" ++ padLeft 2 date.2.2 ++ "T" ++
    padLeft 2 (ms / 3600000) ++ ":" ++ padLeft 2 (ms / 60000 % 60) ++ ":" ++
    padLeft 2 (ms / 1000 % 60) ++ "." ++ padLeft 3 (ms % 1000) ++ "Z"

/-- The expression `s.split('T')[0]`: the part of `s` before its first `T`. -/
def beforeT (s : String) : String := String.mk (s.toList.takeWhile (fun c => c != 'T'))

/-! ## Data files, oracle and world -/

/-- A record of `data/bookings.json`. The fields the bot compares are `date`
(a record whose date is not a string behaves as one whose date matches nothing)
and `time`, which may be a string, a number or absent. Elements of the stored
array of any other shape are covered by `Json` below. -/
structure Booking where
  id : String
  /-- The customer label, in UTF-16 code units. -/
  customer : Utf16
  service : String
  date : String
  time : JsVal
  source : String
  instagramId : Option String
  deriving DecidableEq, Repr

/-- A record of `data/bot_logs.json`. -/
structure LogEntry where
  id : String
  timestamp : String
  /-- The message, in UTF-16 code units. -/
  message : Utf16
  type : String
  deriving DecidableEq, Repr

/-- The data files the bot touches. -/
inductive DataFile where
  | bookings
  | botSettings
  | botLogs
  deriving DecidableEq, Repr

/-- What the bot does to its surroundings, in the order it does it. -/
inductive Event where
  /-- A call `readData(file)`. -/
  | read (file : DataFile)
  /-- A call `writeData(file, data)`. -/
  | write (file : DataFile)
  /-- A call `sendInstagramMessage(recipientId, text)`. -/
  | reply (recipientId text : String)
  /-- The request `axios.post` to the messaging API. -/
  | post (token recipientId text : String)
  deriving DecidableEq, Repr

/-- The inputs of one run that the code does not compute: clock readings,
random identifiers, the environment's token and the outcome of the request. -/
structure Oracle where
  /-- Time value of the `new Date()` in `parseBookingRequest`, in milliseconds. -/
  now : Nat
  /-- Milliseconds from `now` to the same local time on the next local calendar
  day, which `setDate(getDate() + 1)` adds: `msPerDay` unless the local offset
  from UTC changes in between. -/
  localDayMs : Nat
  /-- The `Math.random().toString(36).substr(2, 9)` of the new booking. -/
  bookingId : String
  /-- The random identifier drawn by the `k`-th call of `logBot`. -/
  logId : Nat → String
  /-- The clock reading of the `k`-th call of `logBot`. -/
  logTime : Nat → Nat
  /-- The variable `process.env.PAGE_ACCESS_TOKEN`. -/
  envToken : Option String
  /-- The outcome of `axios.post`: `none` when it resolves, the error message
  that the `catch` block extracts when it rejects. -/
  postError : Option String

/-- The state the bot runs in. -/
structure World where
  /-- Content of `data/bookings.json`. -/
  bookings : List Booking
  /-- Content of `data/bot_logs.json`. -/
  botLogs : List LogEntry
  /-- The field `accessToken` of `data/bot_settings.json`, when it is a string. -/
  accessToken : Option String
  /-- Number of `logBot` calls made so far in this run. -/
  logCalls : Nat
  /-- Events so far, oldest first. -/
  trace : List Event
  deriving DecidableEq, Repr

/-- The webhook event handed to the bot: `event.sender.id` and
`event.message.text` (absent for a message without text). -/
structure MessageEvent where
  senderId : String
  text : Option String
  deriving DecidableEq, Repr

/-! ## `logBot` -/

/-- The body of `logBot` on the log list it read: the new entry is put in
front (`unshift`) and the list is cut to its first 50 entries. -/
def pushLog (id : String) (time : Nat) (message : Utf16) (type : String)
    (logs : List LogEntry) : List LogEntry :=
  let logs := { id := id, timestamp := toISOString time, message := message,
                type := type : LogEntry } :: logs
  if logs.length > 50 then logs.take 50 else logs

/-- The helper `logBot(message, type)`. -/
def logBot (o : Oracle) (message : Utf16) (type : String) (w : World) : World :=
  { w with
    botLogs := pushLog (o.logId w.logCalls) (o.logTime w.logCalls) message type w.botLogs
    logCalls := w.logCalls + 1
    trace := w.trace ++ [Event.read DataFile.botLogs, Event.write DataFile.botLogs] }

/-! ## `sendInstagramMessage` -/

/-- The constant `PAGE_ACCESS_TOKEN`: the environment's token unless it is
absent or empty. -/
def PAGE_ACCESS_TOKEN (o : Oracle) : String :=
  match o.envToken with
  | some t => if t = "" then "PLACEHOLDER_TOKEN" else t
  | none => "PLACEHOLDER_TOKEN"

/-- The expression `settings.accessToken || PAGE_ACCESS_TOKEN`. -/
def replyToken (o : Oracle) (w : World) : String :=
  match w.accessToken with
  | some t => if t = "" then PAGE_ACCESS_TOKEN o else t
  | none => PAGE_ACCESS_TOKEN o

/-- The helper `sendInstagramMessage(recipientId, text)`. -/
def sendInstagramMessage (o : Oracle) (recipientId text : String) (w : World) : World :=
  let w := { w with trace := w.trace ++
    [Event.reply recipientId text, Event.read DataFile.botSettings] }
  let token : String := replyToken o w
  if token = "" ∨ token = "PLACEHOLDER_TOKEN" then
    logBot o (utf16 "Missing Access Token. Cannot reply.") "error" w
  else
    let w := { w with trace := w.trace ++ [Event.post token recipientId text] }
    match o.postError with
    | none =>
      logBot o (utf16 ("Sent reply to " ++ recipientId ++ ": \"") ++ substr0 text 20 ++
        utf16 "...\"") "outgoing" w
    | some err => logBot o (utf16 ("Failed to send message: " ++ err)) "error" w

/-! ## `parseBookingRequest` -/

/-- The result of `parseBookingRequest` when it is not `null`. -/
structure Intent where
  dateStr : String
  hour : JsNum
  deriving DecidableEq, Repr

/-- The function `parseBookingRequest(text)`; `now` is the reading of
`new Date()` and `localDayMs` what `setDate(getDate() + 1)` adds to it. -/
def parseBookingRequest (now localDayMs : Nat) (text : String) : Option Intent :=
  let text := toLowerCase text
  let today := now
  let tomorrow := today + localDayMs
  let targetDate : Option Nat := none
  let targetDate := if includes text "today" then some today else targetDate
  let targetDate := if includes text "tomorrow" then some tomorrow else targetDate
  match targetDate, timeMatch text with
  | some target, some m =>
    let hour := parseInt (JsVal.str m.digits)
    let meridiem := m.meridiem
    let hour := if meridiem = some "pm" ∧ jsLt hour (some 12) then jsAdd hour (some 12) else hour
    let hour := if meridiem = some "am" ∧ jsStrictEq hour (some 12) then some 0 else hour
    let hour := if meridiem = none ∧ jsLt hour (some 10) then jsAdd hour (some 12) else hour
    some { dateStr := beforeT (toISOString target), hour := hour }
  | _, _ => none

/-! ## `processInstagramMessage` -/

/-- The callback of `bookings.some(...)`: the record is on date `dateStr` at
hour `hour`. -/
def occupies (dateStr : String) (hour : JsNum) (b : Booking) : Bool :=
  b.date = dateStr && jsStrictEq (parseInt b.time) hour

/-- The availability check `bookings.some(b => b.date === dateStr &&
parseInt(b.time) === hour)`. -/
def isTaken (bookings : List Booking) (dateStr : String) (hour : JsNum) : Bool :=
  bookings.any (occupies dateStr hour)

/-- The suggestion list built in the slot-taken branch. -/
def suggestions (bookings : List Booking) (dateStr : String) (hour : JsNum) : List String :=
  let suggestions : List String := []
  let suggestions :=
    if !isTaken bookings dateStr (jsAdd hour (some 1)) && jsLe (jsAdd hour (some 1)) (some 22)
    then suggestions ++ [numToString (jsSub (jsAdd hour (some 1)) (some 12)) ++ " PM"]
    else suggestions
  let suggestions :=
    if !isTaken bookings dateStr (jsSub hour (some 1)) && jsGe (jsSub hour (some 1)) (some 12)
    then suggestions ++ [numToString (jsSub (jsSub hour (some 1)) (some 12)) ++ " PM"]
    else suggestions
  suggestions

/-- The expression `suggestions.join(' or ')`. -/
def joinOr : List String → String
  | [] => ""
  | [s] => s
  | s :: rest => s ++ " or " ++ joinOr rest

/-- The value of `suggestionText`. -/
def suggestionText (suggestions : List String) : String :=
  if suggestions.length > 0 then "Available times near that: " ++ joinOr suggestions
  else "Fully booked around that time."

/-- The expression `hour > 12 ? hour - 12 : hour` of the replies. -/
def displayHour (hour : JsNum) : JsNum :=
  if jsGt hour (some 12) then jsSub hour (some 12) else hour

/-- The help prompt sent when no intent is parsed. -/
def helpPrompt : String :=
  "ðŸ‘‹ Hello! To book, please say something like: \x27Haircut tomorrow at 4pm\x27"

/-- The reply for an hour outside opening hours. -/
def closedReply : String :=
  "âŒ We are only open from 12:00 PM to 10:00 PM. Please choose another time."

/-- The reply for a taken slot. -/
def takenReply (hour : JsNum) (suggestions : List String) : String :=
  "âŒ Sorry, " ++ numToString (displayHour hour) ++ " PM is taken. " ++
    suggestionText suggestions

/-- The reply for a confirmed booking. -/
def confirmedReply (dateStr : String) (hour : JsNum) : String :=
  "âœ… Confirmed! Booked for " ++ dateStr ++ " at " ++
    numToString (displayHour hour) ++
    " PM. See you soon at 3BD Barber Shop! âœ‚ï¸"

/-- The object `newBooking` built in the confirmed branch. -/
def newBooking (o : Oracle) (senderId dateStr : String) (hour : JsNum) : Booking :=
  { id := o.bookingId
    customer := utf16 "Instagram User (" ++ substr0 senderId 4 ++ utf16 ")"
    service := "Haircut (Insta)"
    date := dateStr
    time := JsVal.str (numToString hour)
    source := "instagram"
    instagramId := some senderId }

/-- The call `readData(FILES.bookings)`. -/
def readBookings (w : World) : List Booking × World :=
  (w.bookings, { w with trace := w.trace ++ [Event.read DataFile.bookings] })

/-- The call `writeData(FILES.bookings, data)`. -/
def writeBookings (data : List Booking) (w : World) : World :=
  { w with bookings := data, trace := w.trace ++ [Event.write DataFile.bookings] }

/-- The function `processInstagramMessage(event)`. -/
def processInstagramMessage (o : Oracle) (event : MessageEvent) (w : World) : World :=
  let senderId := event.senderId
  match event.text with
  | none => w
  | some message =>
    if message = "" then w
    else
      let w := logBot o (utf16 ("Received DM: \"" ++ message ++ "\"")) "incoming" w
      match parseBookingRequest o.now o.localDayMs message with
      | none => sendInstagramMessage o senderId helpPrompt w
      | some intent =>
        let dateStr := intent.dateStr
        let hour := intent.hour
        if jsLt hour (some 12) ∨ jsGt hour (some 22) then
          sendInstagramMessage o senderId closedReply w
        else
          let r := readBookings w
          let bookings := r.1
          let w := r.2
          if isTaken bookings dateStr hour then
            sendInstagramMessage o senderId
              (takenReply hour (suggestions bookings dateStr hour)) w
          else
            let booking := newBooking o senderId dateStr hour
            let r := readBookings w
            let currentBookings := r.1 ++ [booking]
            let w := writeBookings currentBookings r.2
            let w := logBot o
              (utf16 ("Created booking for " ++ dateStr ++ " @ " ++ numToString hour))
              "success" w
            sendInstagramMessage o senderId (confirmedReply dateStr hour) w

/-! ## Observations on a run -/

/-- The events of a run that started in `w` and ended in `w'`. -/
def newEvents (w w' : World) : List Event := w'.trace.drop w.trace.length

/-- The replies among some events: recipient and text, in order. -/
def repliesOf : List Event → List (String × String)
  | [] => []
  | Event.reply r t :: es => (r, t) :: repliesOf es
  | _ :: es => repliesOf es

/-- The accesses to `data/bookings.json` among some events, in order. -/
def bookingAccesses : List Event → List Event
  | [] => []
  | Event.read DataFile.bookings :: es => Event.read DataFile.bookings :: bookingAccesses es
  | Event.write DataFile.bookings :: es => Event.write DataFile.bookings :: bookingAccesses es
  | _ :: es => bookingAccesses es

/-- The events one call of `logBot` adds. -/
def logEvents : List Event := [Event.read DataFile.botLogs, Event.write DataFile.botLogs]

/-- The clarification outcome: the help prompt is the one reply, and the booking
collection is neither read nor written. -/
def Clarification (senderId : String) (w w' : World) : Prop :=
  repliesOf (newEvents w w') = [(senderId, helpPrompt)] ∧
  bookingAccesses (newEvents w w') = [] ∧ w'.bookings = w.bookings

/-- The out-of-hours outcome: the opening-hours reply is the one reply, and the
booking collection is neither read nor written. -/
def OutOfHours (senderId : String) (w w' : World) : Prop :=
  repliesOf (newEvents w w') = [(senderId, closedReply)] ∧
  bookingAccesses (newEvents w w') = [] ∧ w'.bookings = w.bookings

/-- The slot-taken outcome for hour `hour` with suggestion list `sugg`: the
rejection is the one reply, the booking collection is read once and not written. -/
def SlotTaken (senderId : String) (hour : JsNum) (sugg : List String) (w w' : World) : Prop :=
  repliesOf (newEvents w w') = [(senderId, takenReply hour sugg)] ∧
  bookingAccesses (newEvents w w') = [Event.read DataFile.bookings] ∧
  w'.bookings = w.bookings

/-- The confirmed outcome with booking `b`: the confirmation for the date and
hour of `b` is the one reply, and the booking collection is read, read again and
written with `b` appended. -/
def Confirmed (senderId : String) (b : Booking) (w w' : World) : Prop :=
  repliesOf (newEvents w w') = [(senderId, confirmedReply b.date (parseInt b.time))] ∧
  bookingAccesses (newEvents w w') =
    [Event.read DataFile.bookings, Event.read DataFile.bookings,
     Event.write DataFile.bookings] ∧
  w'.bookings = w.bookings ++ [b]

/-- The hours suggested for a taken slot at `hour`, as the claim words them:
the later neighbour if it is at most 22 and free, then the earlier neighbour if
it is at least 12 and free. -/
def suggestedHoursSpec (bookings : List Booking) (dateStr : String) (hour : Int) : List Int :=
  (if hour + 1 ≤ 22 ∧ isTaken bookings dateStr (some (hour + 1)) = false then [hour + 1] else []) ++
  (if hour - 1 ≥ 12 ∧ isTaken bookings dateStr (some (hour - 1)) = false then [hour - 1] else [])

/-- The text the suggestion branch renders for a suggested hour `s`. -/
def suggestionLabel (s : Int) : String := toString (s - 12) ++ " PM"

/-- The 12-hour PM label of an hour from 12 to 22, as the claim words it:
`12 PM` for noon and the hour less twelve otherwise. -/
def pmLabelSpec (s : Int) : String :=
  if s = 12 then "12 PM" else toString (s - 12) ++ " PM"

/-- Meridiem normalisation as the claim words it, for the captured number `n`
and marker `m`. -/
def normalisedHourSpec (n : Int) (m : Option String) : Int :=
  if m = some "pm" ∧ n < 12 then n + 12
  else if m = some "am" ∧ n = 12 then 0
  else if m = none ∧ n < 10 then n + 12
  else n

/-- At most one booking per pair of a date and an integer hour. -/
def NoDoubleBooking (bookings : List Booking) : Prop :=
  ∀ (dateStr : String) (hour : Int),
    (bookings.filter (occupies dateStr (some hour))).length ≤ 1

/-- The ten characters of the class `\d`. -/
def digitChars : List Char := ['0', '1', '2', '3', '4', '5', '6', '7', '8', '9']

/-! ## Sample inputs -/

/-- A clock reading on 10 January 2024 (15:03:20 UTC), no change of the local
offset, a token in the environment and a request that succeeds. -/
def sampleOracle : Oracle :=
  { now := 1704899000000
    localDayMs := msPerDay
    bookingId := "k3j9x0q1z"
    logId := fun k => "log" ++ toString k
    logTime := fun k => 1704899000000 + k
    envToken := some "token"
    postError := none }

/-- A world with the given booking collection and nothing else. -/
def worldWith (bookings : List Booking) : World :=
  { bookings := bookings, botLogs := [], accessToken := none, logCalls := 0, trace := [] }

/-- A manual booking on 10 January 2024 with the given `time` field. -/
def sampleBooking (id : String) (time : JsVal) : Booking :=
  { id := id, customer := utf16 "Sami", service := "Haircut", date := "2024-01-10",
    time := time, source := "manual", instagramId := none }

/-- The booking the bot writes for "Haircut tomorrow at 5pm" from sender
17841400123 under `sampleOracle`. -/
def sampleConfirmed : Booking :=
  { id := "k3j9x0q1z", customer := utf16 "Instagram User (1784)",
    service := "Haircut (Insta)",
    date := "2024-01-11", time := JsVal.str "17", source := "instagram",
    instagramId := some "17841400123" }

/-- The world `w` with `bookings` as the content of `data/bookings.json`. -/
def withBookings (bookings : List Booking) (w : World) : World :=
  { w with bookings := bookings }

/-- The oracle `sampleOracle` with another draw of `Math.random` for the
booking. -/
def sampleOracleRedrawn : Oracle :=
  { sampleOracle with bookingId := "p7m2c4r8t" }

/-- The digits the claim reads the hour from: the first one or two characters
of the leftmost run of digits. -/
def leftmostDigitsSpec (s : List Char) : List Char :=
  ((s.dropWhile (fun c => !isDigit c)).takeWhile isDigit).take 2

/-! ## The admin calendar (`bookings.js`) -/

/-- The values `hour` takes in `for (let hour = start; hour < bound; hour++)`,
in order. -/
def hoursBelow (start bound : Nat) : List Nat := List.range' start (bound - start)

/-- An `<option>` of the select `booking-time`. -/
structure TimeOption where
  /-- The attribute `value`; `opt.value = hour` stores the string of the number. -/
  value : String
  /-- The `textContent`. -/
  text : String
  deriving DecidableEq, Repr

/-- The options `populateTimeSlots()` puts into the select, whose loop is
`for (let hour = 12; hour <= 22; hour++)`. -/
def populateTimeSlots : List TimeOption :=
  (hoursBelow 12 (22 + 1)).map fun hour =>
    { value := toString hour
      text := if hour ≤ 12 then toString hour ++ ":00 PM" else toString (hour - 12) ++ ":00 PM" }

/-- A cell of the calendar body: its day and the booking shown in it. -/
structure CalendarCell where
  dateKey : String
  booking : Option Booking
  deriving DecidableEq, Repr

/-- A row of the calendar body. -/
structure CalendarRow where
  hour : Nat
  timeLabel : String
  cells : List CalendarCell
  deriving DecidableEq, Repr

/-- The body rows `renderCalendar()` builds from `this.data`, whose loop is
`for (let hour = 12; hour < 22; hour++)`; `dateKey i` is the ISO date of day `i`
of the week on display. -/
def renderCalendar (data : List Booking) (dateKey : Nat → String) : List CalendarRow :=
  (hoursBelow 12 22).map fun hour =>
    { hour := hour
      timeLabel := if hour ≤ 12 then toString hour ++ " PM" else toString (hour - 12) ++ " PM"
      cells := (hoursBelow 0 7).map fun i =>
        { dateKey := dateKey i
          booking := data.find? fun b =>
            b.date = dateKey i && jsStrictEq (parseInt b.time) (some (hour : Int)) } }

/-! ## `saveBooking` (`bookings.js`) -/

/-- The abstract operation `StringToNumber` on strings that are empty, an
optionally signed run of decimal digits, or a `0x`, `0o` or `0b` literal, with
white space around them; every other string is read as NaN (decimal literals
with a fraction or an exponent and `Infinity` are outside the model: the select
that feeds `saveBooking` never holds them). -/
def stringToNumber (s : String) : JsNum :=
  let t := ((s.toList.dropWhile isStrWhiteSpace).reverse.dropWhile isStrWhiteSpace).reverse
  let allDigits (radix : Nat) (r : List Char) : JsNum :=
    if r.all (fun c => match digitValue c with | some d => decide (d < radix) | none => false)
    then (readDigits radix r none).map (fun n => (n : Int)) else none
  match t with
  | [] => some 0
  | '0' :: 'x' :: r => allDigits 16 r
  | '0' :: 'X' :: r => allDigits 16 r
  | '0' :: 'o' :: r => allDigits 8 r
  | '0' :: 'O' :: r => allDigits 8 r
  | '0' :: 'b' :: r => allDigits 2 r
  | '0' :: 'B' :: r => allDigits 2 r
  | '-' :: r => (allDigits 10 r).map (fun n => -n)
  | '+' :: r => allDigits 10 r
  | r => allDigits 10 r

/-- The comparison `b.time == time` of a stored value with a string: strings are
compared as strings, a number with the number the string converts to, and an
absent value equals no string. -/
def looseEqString (v : JsVal) (s : String) : Bool :=
  match v with
  | JsVal.str t => t = s
  | JsVal.num n => jsStrictEq (some n) (stringToNumber s)
  | JsVal.undefined => false

/-- The fields `saveBooking()` reads from the form. -/
structure BookingForm where
  id : String
  customer : String
  service : String
  date : String
  time : String
  deriving DecidableEq, Repr

/-- What `saveBooking()` leaves behind: `this.data`, whether it raised the
alert, and whether it went on to `persist()`. -/
structure SaveResult where
  data : List Booking
  alerted : Bool
  persisted : Bool
  deriving DecidableEq, Repr

/-- The callback of the double-booking check: another booking on the date and
time of the form. -/
def conflictsWith (form : BookingForm) (b : Booking) : Bool :=
  b.date = form.date && looseEqString b.time form.time && b.id != form.id

/-- The method `saveBooking()`; `freshId` is the value of `app.generateId()`. -/
def saveBooking (freshId : String) (form : BookingForm) (data : List Booking) : SaveResult :=
  match data.find? (conflictsWith form) with
  | some _ => { data := data, alerted := true, persisted := false }
  | none =>
    if form.id ≠ "" then
      match data.findIdx? (fun b => b.id = form.id) with
      | some index =>
        { data := data.modify
            (fun b => { b with customer := utf16 form.customer, service := form.service,
                               date := form.date, time := JsVal.str form.time }) index
          alerted := false, persisted := true }
      | none => { data := data, alerted := false, persisted := true }
    else
      { data := data ++ [{ id := freshId, customer := utf16 form.customer, service := form.service,
                           date := form.date, time := JsVal.str form.time,
                           source := "manual", instagramId := none }]
        alerted := false, persisted := true }

/-- The booking `saveBooking()` creates from the form. -/
def manualBooking (freshId : String) (form : BookingForm) : Booking :=
  { id := freshId, customer := utf16 form.customer, service := form.service,
    date := form.date, time := JsVal.str form.time, source := "manual", instagramId := none }

/-- The update `{ ...b, customer, service, date, time }` of a booking with the
form. -/
def patchBooking (form : BookingForm) (b : Booking) : Booking :=
  { b with customer := utf16 form.customer, service := form.service,
           date := form.date, time := JsVal.str form.time }

/-- A stored `time` is in the form the application writes: when it parses to
the hour `h` it is the number `h` or the decimal string of `h`. -/
def canonicalTime (v : JsVal) : Bool :=
  match parseInt v with
  | none => true
  | some h => v = JsVal.num h || v = JsVal.str (toString h)

/-- The text `YYYY-MM-DD` of the day `days` days after 1 January 1970. -/
def isoDate (days : Nat) : String :=
  isoYear (civilFromDays days).1 ++ "-" ++ padLeft 2 (civilFromDays days).2.1 ++ "-" ++
    padLeft 2 (civilFromDays days).2.2

/-- The text `HH:mm:ss.sssZ` of the time value `t`. -/
def isoTime (t : Nat) : String :=
  padLeft 2 (t % msPerDay / 3600000) ++ (":" ++ (padLeft 2 (t % msPerDay / 60000 % 60) ++
    (":" ++ (padLeft 2 (t % msPerDay / 1000 % 60) ++ ("." ++
      (padLeft 3 (t % msPerDay % 1000) ++ "Z"))))))

/-! ## Runs on the bookings file as parsed

The function `readData` hands `processInstagramMessage` whatever `JSON.parse`
makes of `data/bookings.json`. The definitions above take that to be an array
of objects whose `time` is a string, a number or absent. The ones below take it
to be any JSON value, and so cover the contents on which the code throws. The
log and settings files stay as in `World`. -/

/-- The exception thrown in the runs modelled here. -/
inductive JsError where
  | typeError
  deriving DecidableEq, Repr

/-- A value as `JSON.parse` makes it. A string is the list of its UTF-16 code
units; a number is integer-valued, as in `JsVal`; an object is the list of its
own properties (each key once), and its prototype is `Object.prototype`. -/
inductive Json where
  | null
  | bool (b : Bool)
  | num (n : Int)
  | str (s : Utf16)
  | arr (items : List Json)
  | obj (fields : List (String × Json))
  deriving Repr

/-- Whether `key` is among the own properties. -/
def ownKey (key : String) (fields : List (String × Json)) : Bool :=
  fields.any (fun f => f.1 == key)

mutual
/-- The abstract operation `ToString` on a parsed value. An array is converted
by `Array.prototype.join`. An object is converted by `Object.prototype.toString`
unless it has an own property `toString`: a parsed value is never callable, so
that property is passed over, `valueOf` (own and not callable, or inherited and
returning the object itself) yields no primitive either, and the conversion
throws a TypeError. -/
def Json.toStr : Json → Except JsError Utf16
  | Json.null => Except.ok (utf16 "null")
  | Json.bool true => Except.ok (utf16 "true")
  | Json.bool false => Except.ok (utf16 "false")
  | Json.num n => Except.ok (utf16 (toString n))
  | Json.str s => Except.ok s
  | Json.arr items => Json.join items
  | Json.obj fields =>
    if ownKey "toString" fields then Except.error JsError.typeError
    else Except.ok (utf16 "[object Object]")
/-- The method `Array.prototype.join` with the default separator: a `null`
element contributes the empty string, any other its `ToString`. -/
def Json.join : List Json → Except JsError Utf16
  | [] => Except.ok []
  | x :: rest =>
    match (match x with
           | Json.null => Except.ok []
           | x => Json.toStr x) with
    | Except.error e => Except.error e
    | Except.ok first =>
      match rest with
      | [] => Except.ok first
      | _ :: _ =>
        match Json.join rest with
        | Except.error e => Except.error e
        | Except.ok others => Except.ok (first ++ utf16 "," ++ others)
end

/-- The characters of a list of code units, for `parseIntChars`: a surrogate
pair is one character; a lone surrogate, which is no character, becomes U+0000,
like it neither white space nor a digit. -/
def decodeUtf16 : Utf16 → List Char
  | [] => []
  | [u] => [Char.ofNat u]
  | hi :: lo :: rest =>
    if 0xD800 ≤ hi ∧ hi < 0xDC00 ∧ 0xDC00 ≤ lo ∧ lo < 0xE000 then
      Char.ofNat (0x10000 + (hi - 0xD800) * 0x400 + (lo - 0xDC00)) :: decodeUtf16 rest
    else Char.ofNat hi :: decodeUtf16 (lo :: rest)

/-- The call `parseInt(v)` on the value of a property (`none` when the property
is absent, which reads as `undefined`). -/
def parseIntJson (v : Option Json) : Except JsError JsNum :=
  match v with
  | none => Except.ok (parseIntChars "undefined".toList)
  | some j =>
    match Json.toStr j with
    | Except.error e => Except.error e
    | Except.ok s => Except.ok (parseIntChars (decodeUtf16 s))

/-- The property read `b.key` for the keys the bot reads, `date` and `time`,
which no prototype defines: it throws a TypeError on `null`, and a number, a
string, a boolean or an array has no such property. -/
def Json.get (key : String) : Json → Except JsError (Option Json)
  | Json.null => Except.error JsError.typeError
  | Json.obj fields => Except.ok (fields.lookup key)
  | _ => Except.ok none

/-- The comparison `v === s` of a property with a string. -/
def strictEqString (v : Option Json) (s : String) : Bool :=
  match v with
  | some (Json.str u) => decide (u = utf16 s)
  | _ => false

/-- The expression `parseInt(b.time)` on an element of the array. -/
def parseIntTime (b : Json) : Except JsError JsNum :=
  match Json.get "time" b with
  | Except.error e => Except.error e
  | Except.ok time => parseIntJson time

/-- The callback `b => b.date === dateStr && parseInt(b.time) === hour` on an
element of the array; `&&` evaluates `parseInt(b.time)` only when the dates are
equal. -/
def occupiesRaw (dateStr : String) (hour : JsNum) (b : Json) : Except JsError Bool :=
  match Json.get "date" b with
  | Except.error e => Except.error e
  | Except.ok date =>
    if strictEqString date dateStr then
      match parseIntTime b with
      | Except.error e => Except.error e
      | Except.ok n => Except.ok (jsStrictEq n hour)
    else Except.ok false

/-- The method `Array.prototype.some` with a callback that may throw: the
elements are visited in order up to the first one for which the callback
returns true. -/
def someRaw (p : Json → Except JsError Bool) : List Json → Except JsError Bool
  | [] => Except.ok false
  | x :: xs =>
    match p x with
    | Except.error e => Except.error e
    | Except.ok true => Except.ok true
    | Except.ok false => someRaw p xs

/-- The availability check on the array as parsed. -/
def isTakenRaw (records : List Json) (dateStr : String) (hour : JsNum) :
    Except JsError Bool :=
  someRaw (occupiesRaw dateStr hour) records

/-- The suggestion list on the array as parsed: in each condition
`!bookings.some(...)` is evaluated before the bound on the hour. -/
def suggestionsRaw (records : List Json) (dateStr : String) (hour : JsNum) :
    Except JsError (List String) :=
  match isTakenRaw records dateStr (jsAdd hour (some 1)) with
  | Except.error e => Except.error e
  | Except.ok later =>
    let suggestions : List String :=
      if !later && jsLe (jsAdd hour (some 1)) (some 22)
      then [numToString (jsSub (jsAdd hour (some 1)) (some 12)) ++ " PM"] else []
    match isTakenRaw records dateStr (jsSub hour (some 1)) with
    | Except.error e => Except.error e
    | Except.ok earlier =>
      Except.ok
        (if !earlier && jsGe (jsSub hour (some 1)) (some 12)
         then suggestions ++ [numToString (jsSub (jsSub hour (some 1)) (some 12)) ++ " PM"]
         else suggestions)

/-- A booking of the model above as `JSON.stringify` and `JSON.parse` hand it
on: an absent `time` or `instagramId` is no property. -/
def Json.ofBooking (b : Booking) : Json :=
  Json.obj
    ([("id", Json.str (utf16 b.id)), ("customer", Json.str b.customer),
      ("service", Json.str (utf16 b.service)), ("date", Json.str (utf16 b.date))] ++
     (match b.time with
      | JsVal.undefined => []
      | JsVal.str s => [("time", Json.str (utf16 s))]
      | JsVal.num n => [("time", Json.num n)]) ++
     [("source", Json.str (utf16 b.source))] ++
     (match b.instagramId with
      | none => []
      | some i => [("instagramId", Json.str (utf16 i))]))

/-- The state of a run on the file as parsed: what `readData(FILES.bookings)`
returns, and the rest of the world (logs, settings, trace), of which the field
`bookings` plays no part here. -/
structure RawWorld where
  file : Json
  world : World

/-- Where a run ends: its state and the exception it threw, if any. -/
structure RawRun where
  state : RawWorld
  thrown : Option JsError

/-- The world after one more event. -/
def traced (e : Event) (w : World) : World := { w with trace := w.trace ++ [e] }

/-- The function `processInstagramMessage(event)` on the file as parsed. On a
value that is not an array `bookings.some` is not a function, and the call
throws a TypeError. -/
def processInstagramMessageRaw (o : Oracle) (event : MessageEvent) (s : RawWorld) : RawRun :=
  let senderId := event.senderId
  match event.text with
  | none => { state := s, thrown := none }
  | some message =>
    if message = "" then { state := s, thrown := none }
    else
      let w := logBot o (utf16 ("Received DM: \"" ++ message ++ "\"")) "incoming" s.world
      match parseBookingRequest o.now o.localDayMs message with
      | none =>
        { state := { s with world := sendInstagramMessage o senderId helpPrompt w }
          thrown := none }
      | some intent =>
        let dateStr := intent.dateStr
        let hour := intent.hour
        if jsLt hour (some 12) ∨ jsGt hour (some 22) then
          { state := { s with world := sendInstagramMessage o senderId closedReply w }
            thrown := none }
        else
          let w := traced (Event.read DataFile.bookings) w
          match s.file with
          | Json.arr bookings =>
            match isTakenRaw bookings dateStr hour with
            | Except.error e => { state := { s with world := w }, thrown := some e }
            | Except.ok true =>
              match suggestionsRaw bookings dateStr hour with
              | Except.error e => { state := { s with world := w }, thrown := some e }
              | Except.ok suggestions =>
                { state := { s with world :=
                    sendInstagramMessage o senderId (takenReply hour suggestions) w }
                  thrown := none }
            | Except.ok false =>
              let booking := newBooking o senderId dateStr hour
              let w := traced (Event.read DataFile.bookings) w
              let currentBookings := bookings ++ [Json.ofBooking booking]
              let w := traced (Event.write DataFile.bookings) w
              let w := logBot o
                (utf16 ("Created booking for " ++ dateStr ++ " @ " ++ numToString hour))
                "success" w
              { state := { file := Json.arr currentBookings
                           world := sendInstagramMessage o senderId
                             (confirmedReply dateStr hour) w }
                thrown := none }
          | _ => { state := { s with world := w }, thrown := some JsError.typeError }

/-- A record on the sample date whose `time` is an object with an own property
`toString`: the file holds an object with `date` set to the string 2024-01-10
and `time` set to an object whose one property, `toString`, is the number 1. -/
def sampleUnconvertible : Json :=
  Json.obj [("date", Json.str (utf16 "2024-01-10")),
    ("time", Json.obj [("toString", Json.num 1)])]

/-! ## Lemmas on the helpers -/

theorem newEvents_of_trace (w w' : World) (es : List Event)
    (h : w'.trace = w.trace ++ es) : newEvents w w' = es := by
  simp [newEvents, h]

theorem repliesOf_append (xs ys : List Event) :
    repliesOf (xs ++ ys) = repliesOf xs ++ repliesOf ys := by
  induction xs with
  | nil => rfl
  | cons e es ih => cases e <;> simp [repliesOf, ih]

theorem bookingAccesses_append (xs ys : List Event) :
    bookingAccesses (xs ++ ys) = bookingAccesses xs ++ bookingAccesses ys := by
  induction xs with
  | nil => rfl
  | cons e es ih =>
    cases e with
    | read f => cases f <;> simp [bookingAccesses, ih]
    | write f => cases f <;> simp [bookingAccesses, ih]
    | reply r t => simp [bookingAccesses, ih]
    | post k r t => simp [bookingAccesses, ih]

theorem logBot_trace (o : Oracle) (m : Utf16) (t : String) (w : World) :
    (logBot o m t w).trace = w.trace ++ logEvents := rfl

theorem logBot_bookings (o : Oracle) (m : Utf16) (t : String) (w : World) :
    (logBot o m t w).bookings = w.bookings := rfl

theorem logBot_accessToken (o : Oracle) (m : Utf16) (t : String) (w : World) :
    (logBot o m t w).accessToken = w.accessToken := rfl

theorem send_bookings (o : Oracle) (r t : String) (w : World) :
    (sendInstagramMessage o r t w).bookings = w.bookings := by
  unfold sendInstagramMessage
  simp only
  split
  · rfl
  · split <;> rfl

theorem send_trace (o : Oracle) (r t : String) (w : World) :
    ∃ es, (sendInstagramMessage o r t w).trace = w.trace ++ Event.reply r t :: es ∧
      repliesOf es = [] ∧ bookingAccesses es = [] := by
  unfold sendInstagramMessage
  simp only
  split
  · exact ⟨Event.read DataFile.botSettings :: logEvents, by simp [logBot_trace], rfl, rfl⟩
  · split
    · exact ⟨Event.read DataFile.botSettings ::
        Event.post (replyToken o w) r t :: logEvents, by simp [logBot_trace, replyToken], rfl, rfl⟩
    · exact ⟨Event.read DataFile.botSettings ::
        Event.post (replyToken o w) r t :: logEvents, by simp [logBot_trace, replyToken], rfl, rfl⟩

theorem send_after (o : Oracle) (r t : String) (w w1 : World) (pre : List Event)
    (h : w1.trace = w.trace ++ pre) :
    repliesOf (newEvents w (sendInstagramMessage o r t w1)) = repliesOf pre ++ [(r, t)] ∧
    bookingAccesses (newEvents w (sendInstagramMessage o r t w1)) = bookingAccesses pre ∧
    (sendInstagramMessage o r t w1).bookings = w1.bookings := by
  obtain ⟨es, htr, hr, hb⟩ := send_trace o r t w1
  have hnew : newEvents w (sendInstagramMessage o r t w1) = pre ++ Event.reply r t :: es :=
    newEvents_of_trace _ _ _ (by rw [htr, h, List.append_assoc])
  refine ⟨?_, ?_, send_bookings o r t w1⟩
  · rw [hnew, repliesOf_append]
    simp [repliesOf, hr]
  · rw [hnew, bookingAccesses_append]
    simp [bookingAccesses, hb]

theorem parse_empty (now localDayMs : Nat) :
    parseBookingRequest now localDayMs "" = none := rfl

theorem parse_none_of_no_keyword (now localDayMs : Nat) (text : String)
    (h1 : includes (toLowerCase text) "today" = false)
    (h2 : includes (toLowerCase text) "tomorrow" = false) :
    parseBookingRequest now localDayMs text = none := by
  simp [parseBookingRequest, h1, h2]

/-! ## The four branches of `processInstagramMessage` -/

theorem process_clarification (o : Oracle) (sid text : String) (w : World)
    (hne : text ≠ "") (hp : parseBookingRequest o.now o.localDayMs text = none) :
    Clarification sid w (processInstagramMessage o ⟨sid, some text⟩ w) := by
  have h := send_after o sid helpPrompt w
    (logBot o (utf16 ("Received DM: \"" ++ text ++ "\"")) "incoming" w) logEvents (logBot_trace _ _ _ _)
  simp only [processInstagramMessage, hne, if_false, hp]
  exact ⟨h.1, h.2.1, h.2.2⟩

theorem process_outOfHours (o : Oracle) (sid text : String) (w : World) (i : Intent)
    (hp : parseBookingRequest o.now o.localDayMs text = some i)
    (hh : jsLt i.hour (some 12) = true ∨ jsGt i.hour (some 22) = true) :
    OutOfHours sid w (processInstagramMessage o ⟨sid, some text⟩ w) := by
  have hne : text ≠ "" := by
    rintro rfl
    rw [parse_empty] at hp
    cases hp
  have h := send_after o sid closedReply w
    (logBot o (utf16 ("Received DM: \"" ++ text ++ "\"")) "incoming" w) logEvents (logBot_trace _ _ _ _)
  simp only [processInstagramMessage, hne, if_false, hp, hh, if_true]
  exact ⟨h.1, h.2.1, h.2.2⟩

theorem process_slotTaken (o : Oracle) (sid text : String) (w : World) (i : Intent)
    (hp : parseBookingRequest o.now o.localDayMs text = some i)
    (hh : ¬ (jsLt i.hour (some 12) = true ∨ jsGt i.hour (some 22) = true))
    (ht : isTaken w.bookings i.dateStr i.hour = true) :
    SlotTaken sid i.hour (suggestions w.bookings i.dateStr i.hour) w
      (processInstagramMessage o ⟨sid, some text⟩ w) := by
  have hne : text ≠ "" := by
    rintro rfl
    rw [parse_empty] at hp
    cases hp
  have h := send_after o sid (takenReply i.hour (suggestions w.bookings i.dateStr i.hour)) w
    (readBookings (logBot o (utf16 ("Received DM: \"" ++ text ++ "\"")) "incoming" w)).2
    (logEvents ++ [Event.read DataFile.bookings])
    (by simp [readBookings, logBot_trace])
  have hb : (readBookings (logBot o (utf16 ("Received DM: \"" ++ text ++ "\"")) "incoming" w)).1
      = w.bookings := rfl
  simp only [processInstagramMessage, hne, if_false, hp, hh, hb, ht, if_true]
  exact ⟨h.1, h.2.1, h.2.2⟩

theorem process_confirmed (o : Oracle) (sid text : String) (w : World) (i : Intent)
    (hp : parseBookingRequest o.now o.localDayMs text = some i)
    (hh : ¬ (jsLt i.hour (some 12) = true ∨ jsGt i.hour (some 22) = true))
    (ht : isTaken w.bookings i.dateStr i.hour = false) :
    repliesOf (newEvents w (processInstagramMessage o ⟨sid, some text⟩ w)) =
      [(sid, confirmedReply i.dateStr i.hour)] ∧
    bookingAccesses (newEvents w (processInstagramMessage o ⟨sid, some text⟩ w)) =
      [Event.read DataFile.bookings, Event.read DataFile.bookings,
       Event.write DataFile.bookings] ∧
    (processInstagramMessage o ⟨sid, some text⟩ w).bookings =
      w.bookings ++ [newBooking o sid i.dateStr i.hour] := by
  have hne : text ≠ "" := by
    rintro rfl
    rw [parse_empty] at hp
    cases hp
  have h := send_after o sid (confirmedReply i.dateStr i.hour) w
    (logBot o (utf16 ("Created booking for " ++ i.dateStr ++ " @ " ++ numToString i.hour))
      "success"
      (writeBookings (w.bookings ++ [newBooking o sid i.dateStr i.hour])
        (readBookings (readBookings
          (logBot o (utf16 ("Received DM: \"" ++ text ++ "\"")) "incoming" w)).2).2))
    (logEvents ++ [Event.read DataFile.bookings, Event.read DataFile.bookings,
      Event.write DataFile.bookings] ++ logEvents)
    (by simp [readBookings, writeBookings, logBot_trace])
  have hb : (readBookings (logBot o (utf16 ("Received DM: \"" ++ text ++ "\"")) "incoming" w)).1
      = w.bookings := rfl
  have hb2 : (readBookings (readBookings
      (logBot o (utf16 ("Received DM: \"" ++ text ++ "\"")) "incoming" w)).2).1 = w.bookings := rfl
  simp only [processInstagramMessage, hne, if_false, hp, hh, hb, hb2, ht]
  exact ⟨h.1, h.2.1, h.2.2⟩

/-! ## Lemmas on the parser -/


theorem isDigit_mem (c : Char) (h : isDigit c = true) : c ∈ digitChars := by
  have h1 : Char.ofNat c.toNat = c := Char.ofNat_toNat c
  simp only [isDigit, Bool.and_eq_true, decide_eq_true_eq] at h
  obtain ⟨n, hn⟩ : ∃ n, c.toNat = n := ⟨_, rfl⟩
  rw [hn] at h h1
  obtain ⟨ha, hb⟩ := h
  rw [← h1]
  interval_cases n <;> decide

theorem parseInt_one_digit :
    ∀ c ∈ digitChars, ∃ n : Int, parseInt (JsVal.str (String.mk [c])) = some n ∧ 0 ≤ n ∧ n ≤ 99 := by
  intro c hc
  simp only [digitChars, List.mem_cons, List.mem_singleton, List.not_mem_nil, or_false] at hc
  rcases hc with rfl | rfl | rfl | rfl | rfl | rfl | rfl | rfl | rfl | rfl <;>
    exact ⟨_, rfl, by decide, by decide⟩

set_option maxRecDepth 4000 in
theorem parseInt_two_digits :
    ∀ c ∈ digitChars, ∀ d ∈ digitChars,
      ∃ n : Int, parseInt (JsVal.str (String.mk [c, d])) = some n ∧ 0 ≤ n ∧ n ≤ 99 := by
  intro c hc d hd
  simp only [digitChars, List.mem_cons, List.mem_singleton, List.not_mem_nil, or_false] at hc hd
  rcases hc with rfl | rfl | rfl | rfl | rfl | rfl | rfl | rfl | rfl | rfl <;>
  rcases hd with rfl | rfl | rfl | rfl | rfl | rfl | rfl | rfl | rfl | rfl <;>
    exact ⟨_, rfl, by decide, by decide⟩

theorem matchAt_some (s : List Char) (m : TimeMatch) (h : matchAt s = some m) :
    (∃ n : Int, parseInt (JsVal.str m.digits) = some n ∧ 0 ≤ n ∧ n ≤ 99) ∧
    (m.meridiem = none ∨ m.meridiem = some "am" ∨ m.meridiem = some "pm") := by
  cases s with
  | nil => simp [matchAt] at h
  | cons d1 rest =>
    simp only [matchAt] at h
    split at h
    · rename_i hd1
      simp only [Option.some.injEq] at h
      subst h
      refine ⟨?_, ?_⟩
      · simp only
        split
        · rename_i d2 rest2
          split
          · rename_i hd2
            exact parseInt_two_digits d1 (isDigit_mem _ hd1) d2 (isDigit_mem _ hd2)
          · exact parseInt_one_digit d1 (isDigit_mem _ hd1)
        · exact parseInt_one_digit d1 (isDigit_mem _ hd1)
      · simp only
        split <;> simp
    · cases h

theorem matchChars_some (s : List Char) (m : TimeMatch) (h : matchChars s = some m) :
    (∃ n : Int, parseInt (JsVal.str m.digits) = some n ∧ 0 ≤ n ∧ n ≤ 99) ∧
    (m.meridiem = none ∨ m.meridiem = some "am" ∨ m.meridiem = some "pm") := by
  induction s with
  | nil => simp [matchChars] at h
  | cons c cs ih =>
    simp only [matchChars] at h
    split at h
    · rename_i m1 hm
      simp only [Option.some.injEq] at h
      subst h
      exact matchAt_some _ _ hm
    · exact ih h


theorem normalise_eq (n : Int) (mer : Option String)
    (hmer : mer = none ∨ mer = some "am" ∨ mer = some "pm") :
    (let hour : JsNum := some n
     let hour := if mer = some "pm" ∧ jsLt hour (some 12) then jsAdd hour (some 12) else hour
     let hour := if mer = some "am" ∧ jsStrictEq hour (some 12) then some 0 else hour
     let hour := if mer = none ∧ jsLt hour (some 10) then jsAdd hour (some 12) else hour
     hour) = some (normalisedHourSpec n mer) := by
  rcases hmer with rfl | rfl | rfl
  · by_cases h : n < 10 <;> simp [jsLt, jsAdd, jsStrictEq, normalisedHourSpec, h]
  · by_cases h : n = 12 <;> simp [jsLt, jsAdd, jsStrictEq, normalisedHourSpec, h]
  · by_cases h : n < 12 <;> simp [jsLt, jsAdd, jsStrictEq, normalisedHourSpec, h]

theorem parse_of_match (now localDayMs : Nat) (text : String) (m : TimeMatch) (n : Int)
    (hk : includes (toLowerCase text) "today" = true ∨
      includes (toLowerCase text) "tomorrow" = true)
    (hm : timeMatch (toLowerCase text) = some m)
    (hn : parseInt (JsVal.str m.digits) = some n) :
    ∃ d, parseBookingRequest now localDayMs text =
      some ⟨d, some (normalisedHourSpec n m.meridiem)⟩ := by
  have hmer := (matchChars_some _ _ hm).2
  have hnorm := normalise_eq n m.meridiem hmer
  simp only at hnorm
  by_cases h2 : includes (toLowerCase text) "tomorrow" = true
  · refine ⟨beforeT (toISOString (now + localDayMs)), ?_⟩
    simp only [parseBookingRequest, h2, if_true, hm, hn, hnorm]
  · have h1 : includes (toLowerCase text) "today" = true := by
      rcases hk with h | h
      · exact h
      · exact absurd h h2
    have h2f : includes (toLowerCase text) "tomorrow" = false := by simpa using h2
    refine ⟨beforeT (toISOString now), ?_⟩
    simp only [parseBookingRequest, h1, h2f, if_true, Bool.false_eq_true, if_false, hm, hn,
      hnorm]

theorem parse_some (now localDayMs : Nat) (text : String) (i : Intent)
    (hp : parseBookingRequest now localDayMs text = some i) :
    ∃ (m : TimeMatch) (n : Int),
      (includes (toLowerCase text) "today" = true ∨
        includes (toLowerCase text) "tomorrow" = true) ∧
      timeMatch (toLowerCase text) = some m ∧
      parseInt (JsVal.str m.digits) = some n ∧ 0 ≤ n ∧ n ≤ 99 ∧
      i.hour = some (normalisedHourSpec n m.meridiem) := by
  cases hm : timeMatch (toLowerCase text) with
  | none =>
    simp only [parseBookingRequest, hm] at hp
    split at hp <;> simp_all
  | some m =>
    obtain ⟨⟨n, hn, h0, h99⟩, _⟩ := matchChars_some _ _ hm
    by_cases hk : includes (toLowerCase text) "today" = true ∨
        includes (toLowerCase text) "tomorrow" = true
    · obtain ⟨d, hd⟩ := parse_of_match now localDayMs text m n hk hm hn
      rw [hd] at hp
      simp only [Option.some.injEq] at hp
      subst hp
      exact ⟨m, n, hk, rfl, hn, h0, h99, rfl⟩
    · simp only [not_or, Bool.not_eq_true] at hk
      rw [parse_none_of_no_keyword _ _ _ hk.1 hk.2] at hp
      cases hp

theorem parse_hour_some (now localDayMs : Nat) (text : String) (i : Intent)
    (hp : parseBookingRequest now localDayMs text = some i) : ∃ h : Int, i.hour = some h := by
  obtain ⟨m, n, _, _, _, _, _, h⟩ := parse_some now localDayMs text i hp
  exact ⟨_, h⟩


/-! ## Distinctness of the outcomes -/

theorem helpPrompt_ne_closedReply : helpPrompt ≠ closedReply := by decide

theorem takenReply_ne_closedReply (hour : JsNum) (sugg : List String) :
    takenReply hour sugg ≠ closedReply := by
  intro h
  have := congrArg (fun s => s.toList.get? 3) h
  simp [takenReply, closedReply, String.toList] at this

theorem confirmedReply_ne_closedReply (dateStr : String) (hour : JsNum) :
    confirmedReply dateStr hour ≠ closedReply := by
  intro h
  have := congrArg (fun s => s.toList.get? 1) h
  simp [confirmedReply, closedReply, String.toList] at this

/-! ## C1: no keyword, no booking -/

/-- C1 (as amended): for every non-empty message text whose lower-cased form
contains neither "today" nor "tomorrow", `parseBookingRequest` returns null and
`processInstagramMessage` takes the clarification outcome: the help prompt is
its one reply and the booking collection is neither read nor written. -/
theorem C1_no_keyword_clarification (o : Oracle) (sid text : String) (w : World)
    (hne : text ≠ "")
    (h1 : includes (toLowerCase text) "today" = false)
    (h2 : includes (toLowerCase text) "tomorrow" = false) :
    parseBookingRequest o.now o.localDayMs text = none ∧
    Clarification sid w (processInstagramMessage o ⟨sid, some text⟩ w) :=
  ⟨parse_none_of_no_keyword _ _ _ h1 h2,
   process_clarification o sid text w hne (parse_none_of_no_keyword _ _ _ h1 h2)⟩

/-- Witness of C1: "Can I get a fade at 5pm on 3 March?" has digits and a
marker but no keyword. -/
theorem C1_no_keyword_clarification_witness :
    "Can I get a fade at 5pm on 3 March?" ≠ "" ∧
    includes (toLowerCase "Can I get a fade at 5pm on 3 March?") "today" = false ∧
    includes (toLowerCase "Can I get a fade at 5pm on 3 March?") "tomorrow" = false ∧
    parseBookingRequest sampleOracle.now sampleOracle.localDayMs
      "Can I get a fade at 5pm on 3 March?" = none ∧
    Clarification "17841400"
      (worldWith [sampleBooking "a1" (JsVal.num 17)])
      (processInstagramMessage sampleOracle
        ⟨"17841400", some "Can I get a fade at 5pm on 3 March?"⟩
        (worldWith [sampleBooking "a1" (JsVal.num 17)])) :=
  ⟨by decide, by decide, by decide,
   C1_no_keyword_clarification sampleOracle "17841400"
     "Can I get a fade at 5pm on 3 March?" (worldWith [sampleBooking "a1" (JsVal.num 17)])
     (by decide) (by decide) (by decide)⟩

/-- Counterexample to C1 as stated: the empty text contains neither keyword,
yet `processInstagramMessage` returns at its guard `if (!message) return;`
without sending the help prompt (it does nothing at all). -/
theorem C1_empty_text_sends_nothing :
    includes (toLowerCase "") "today" = false ∧
    includes (toLowerCase "") "tomorrow" = false ∧
    processInstagramMessage sampleOracle ⟨"17841400", some ""⟩ (worldWith []) = worldWith [] ∧
    ¬ Clarification "17841400" (worldWith [])
      (processInstagramMessage sampleOracle ⟨"17841400", some ""⟩ (worldWith [])) := by
  refine ⟨by decide, by decide, rfl, ?_⟩
  unfold Clarification
  decide

/-! ## C2: the opening-hours gate -/

/-- C2: when the parser yields hour `h`, the run takes the out-of-hours outcome
(the opening-hours reply, the booking collection not even read) exactly when
`h < 12` or `h > 22`, whatever the booking collection holds; for
`12 <= h <= 22` the opening-hours reply is not sent. -/
theorem C2_hours_gate (o : Oracle) (sid text d : String) (h : Int) (w : World)
    (hp : parseBookingRequest o.now o.localDayMs text = some ⟨d, some h⟩) :
    (OutOfHours sid w (processInstagramMessage o ⟨sid, some text⟩ w) ↔ (h < 12 ∨ h > 22)) ∧
    ((12 ≤ h ∧ h ≤ 22) →
      (sid, closedReply) ∉
        repliesOf (newEvents w (processInstagramMessage o ⟨sid, some text⟩ w))) := by
  by_cases hh : h < 12 ∨ h > 22
  · have hj : jsLt (some h) (some 12) = true ∨ jsGt (some h) (some 22) = true := by
      simpa [jsLt, jsGt] using hh
    refine ⟨⟨fun _ => hh, fun _ => process_outOfHours o sid text w _ hp hj⟩, ?_⟩
    intro hin
    omega
  · have hj : ¬ (jsLt (some h) (some 12) = true ∨ jsGt (some h) (some 22) = true) := by
      simpa [jsLt, jsGt] using hh
    cases ht : isTaken w.bookings d (some h) with
    | true =>
      have hs := process_slotTaken o sid text w _ hp hj ht
      refine ⟨⟨fun hout => ?_, fun hc => absurd hc hh⟩, fun _ => ?_⟩
      · have h1 := hout.2.1
        rw [hs.2.1] at h1
        cases h1
      · rw [hs.1]
        simp only [List.mem_singleton, Prod.mk.injEq, not_and]
        intro _ hc
        exact takenReply_ne_closedReply _ _ hc.symm
    | false =>
      have hs := process_confirmed o sid text w _ hp hj ht
      refine ⟨⟨fun hout => ?_, fun hc => absurd hc hh⟩, fun _ => ?_⟩
      · have h1 := hout.2.1
        rw [hs.2.1] at h1
        cases h1
      · rw [hs.1]
        simp only [List.mem_singleton, Prod.mk.injEq, not_and]
        intro _ hc
        exact confirmedReply_ne_closedReply _ _ hc.symm

/-- Witness of C2: "today at 9am" parses to hour 9, and the run is out of hours
although no booking stands in the way. -/
theorem C2_hours_gate_witness :
    parseBookingRequest sampleOracle.now sampleOracle.localDayMs "today at 9am"
      = some ⟨"2024-01-10", some 9⟩ ∧
    OutOfHours "17841400" (worldWith [])
      (processInstagramMessage sampleOracle ⟨"17841400", some "today at 9am"⟩ (worldWith [])) :=
  ⟨by decide,
   (C2_hours_gate sampleOracle "17841400" "today at 9am" "2024-01-10" 9 (worldWith [])
      (by decide)).1.mpr (by decide)⟩

/-! ## C3: the availability check -/

/-- C3: the availability check reports a slot as taken exactly when some booking
of the collection has the same date string and a `time` that `parseInt` reads as
the hour; a stored `"15"` and a stored `15` both make hour 15 taken. -/
theorem C3_isTaken_iff :
    (∀ (bookings : List Booking) (d : String) (h : Int),
      isTaken bookings d (some h) = true ↔
        ∃ b ∈ bookings, b.date = d ∧ parseInt b.time = some h) ∧
    parseInt (JsVal.str "15") = some 15 ∧ parseInt (JsVal.num 15) = some 15 ∧
    isTaken [sampleBooking "a1" (JsVal.str "15")] "2024-01-10" (some 15) = true ∧
    isTaken [sampleBooking "a1" (JsVal.num 15)] "2024-01-10" (some 15) = true := by
  refine ⟨?_, by decide, by decide, by decide, by decide⟩
  intro bookings d h
  simp only [isTaken, List.any_eq_true, occupies, Bool.and_eq_true, decide_eq_true_eq]
  constructor
  · rintro ⟨b, hb, hd, he⟩
    refine ⟨b, hb, hd, ?_⟩
    cases hpi : parseInt b.time with
    | none => simp [hpi, jsStrictEq] at he
    | some x =>
      simp [hpi, jsStrictEq] at he
      rw [he]
  · rintro ⟨b, hb, hd, he⟩
    exact ⟨b, hb, hd, by simp [he, jsStrictEq]⟩

/-! ## The run as a whole -/

theorem parseInt_toString_hour (h : Int) (h12 : 12 ≤ h) (h22 : h ≤ 22) :
    parseInt (JsVal.str (toString h)) = some h := by
  interval_cases h <;> decide

theorem newEvents_self (w : World) : newEvents w w = [] := by
  simp [newEvents]

theorem process_empty (o : Oracle) (sid : String) (w : World) :
    processInstagramMessage o ⟨sid, some ""⟩ w = w := rfl

theorem in_hours_iff (h : Int) :
    ¬ (jsLt (some h) (some 12) = true ∨ jsGt (some h) (some 22) = true) ↔ 12 ≤ h ∧ h ≤ 22 := by
  simp only [jsLt, jsGt, decide_eq_true_eq]
  omega

/-- Every run on a non-empty text is one of the four branches, with its
payload. -/
theorem process_cases (o : Oracle) (sid text : String) (w : World) (hne : text ≠ "") :
    (parseBookingRequest o.now o.localDayMs text = none ∧
      Clarification sid w (processInstagramMessage o ⟨sid, some text⟩ w)) ∨
    (∃ d h, parseBookingRequest o.now o.localDayMs text = some ⟨d, some h⟩ ∧
      (h < 12 ∨ h > 22) ∧
      OutOfHours sid w (processInstagramMessage o ⟨sid, some text⟩ w)) ∨
    (∃ d h, parseBookingRequest o.now o.localDayMs text = some ⟨d, some h⟩ ∧
      12 ≤ h ∧ h ≤ 22 ∧ isTaken w.bookings d (some h) = true ∧
      SlotTaken sid (some h) (suggestions w.bookings d (some h)) w
        (processInstagramMessage o ⟨sid, some text⟩ w)) ∨
    (∃ d h, parseBookingRequest o.now o.localDayMs text = some ⟨d, some h⟩ ∧
      12 ≤ h ∧ h ≤ 22 ∧ isTaken w.bookings d (some h) = false ∧
      Confirmed sid (newBooking o sid d (some h)) w
        (processInstagramMessage o ⟨sid, some text⟩ w)) := by
  cases hp : parseBookingRequest o.now o.localDayMs text with
  | none => exact Or.inl ⟨rfl, process_clarification o sid text w hne hp⟩
  | some i =>
    obtain ⟨h, hh⟩ := parse_hour_some _ _ _ _ hp
    obtain ⟨d, hr⟩ := i
    simp only at hh
    subst hh
    by_cases hin : jsLt (some h) (some 12) = true ∨ jsGt (some h) (some 22) = true
    · refine Or.inr (Or.inl ⟨d, h, rfl, ?_, process_outOfHours o sid text w _ hp hin⟩)
      simpa [jsLt, jsGt] using hin
    · have hb := (in_hours_iff h).mp hin
      cases ht : isTaken w.bookings d (some h) with
      | true =>
        have hs := process_slotTaken o sid text w ⟨d, some h⟩ hp hin ht
        exact Or.inr (Or.inr (Or.inl ⟨d, h, rfl, hb.1, hb.2, ht, hs⟩))
      | false =>
        have hc := process_confirmed o sid text w ⟨d, some h⟩ hp hin ht
        refine Or.inr (Or.inr (Or.inr ⟨d, h, rfl, hb.1, hb.2, ht, ?_, hc.2.1, hc.2.2⟩))
        rw [hc.1]
        simp only [newBooking, numToString, parseInt_toString_hour h hb.1 hb.2]

/-- A run that confirms went through the fourth branch. -/
theorem confirmed_inv (o : Oracle) (sid text : String) (w : World) (b : Booking)
    (hc : Confirmed sid b w (processInstagramMessage o ⟨sid, some text⟩ w)) :
    ∃ d h, parseBookingRequest o.now o.localDayMs text = some ⟨d, some h⟩ ∧
      12 ≤ h ∧ h ≤ 22 ∧ isTaken w.bookings d (some h) = false ∧
      b = newBooking o sid d (some h) := by
  by_cases hne : text = ""
  · subst hne
    have h1 := hc.2.1
    rw [process_empty, newEvents_self] at h1
    cases h1
  · rcases process_cases o sid text w hne with
      ⟨_, h⟩ | ⟨_, _, _, _, h⟩ | ⟨_, _, _, _, _, _, h⟩ | ⟨d, h, hp, h12, h22, ht, hcf⟩
    · have h1 := hc.2.1
      rw [h.2.1] at h1
      cases h1
    · have h1 := hc.2.1
      rw [h.2.1] at h1
      cases h1
    · have h1 := hc.2.1
      rw [h.2.1] at h1
      cases h1
    · refine ⟨d, h, hp, h12, h22, ht, ?_⟩
      have h1 := hc.2.2
      rw [hcf.2.2] at h1
      have h2 := List.append_cancel_left h1
      simp only [List.cons.injEq, and_true] at h2
      exact h2.symm

theorem suggestions_eq (bookings : List Booking) (d : String) (h : Int) :
    suggestions bookings d (some h) = (suggestedHoursSpec bookings d h).map suggestionLabel := by
  simp only [suggestions, suggestedHoursSpec, jsAdd, jsSub, jsLe, jsGe, numToString]
  generalize isTaken bookings d (some (h + 1)) = t1
  generalize isTaken bookings d (some (h - 1)) = t2
  cases t1 <;> cases t2 <;> by_cases b1 : h + 1 ≤ 22 <;> by_cases b2 : 12 ≤ h - 1 <;>
    simp [suggestionLabel, b1, b2]

/-! ## C4: the suggestion list -/

/-- C4: for an in-hours request whose slot is taken, the suggestion list of the
rejection is the label of `h+1` if `h+1 <= 22` and `(d, h+1)` is free, followed
by the label of `h-1` if `h-1 >= 12` and `(d, h-1)` is free; so it has at most
two entries, the later neighbour comes first, and every suggested hour is free
and within 12 to 22. -/
theorem C4_suggestion_list (o : Oracle) (sid text d : String) (h : Int) (w : World)
    (hp : parseBookingRequest o.now o.localDayMs text = some ⟨d, some h⟩)
    (h12 : 12 ≤ h) (h22 : h ≤ 22) (ht : isTaken w.bookings d (some h) = true) :
    suggestions w.bookings d (some h) =
      (suggestedHoursSpec w.bookings d h).map suggestionLabel ∧
    SlotTaken sid (some h) ((suggestedHoursSpec w.bookings d h).map suggestionLabel) w
      (processInstagramMessage o ⟨sid, some text⟩ w) ∧
    (suggestedHoursSpec w.bookings d h).length ≤ 2 ∧
    List.Sublist (suggestedHoursSpec w.bookings d h) [h + 1, h - 1] ∧
    ∀ s ∈ suggestedHoursSpec w.bookings d h,
      12 ≤ s ∧ s ≤ 22 ∧ isTaken w.bookings d (some s) = false := by
  have hin := (in_hours_iff h).mpr ⟨h12, h22⟩
  have hs := process_slotTaken o sid text w ⟨d, some h⟩ hp hin ht
  simp only [suggestions_eq] at hs
  refine ⟨suggestions_eq _ _ _, hs, ?_, ?_, ?_⟩
  · unfold suggestedHoursSpec
    split <;> split <;> simp
  · unfold suggestedHoursSpec
    split <;> split <;> simp
  · intro s hs
    unfold suggestedHoursSpec at hs
    simp only [List.mem_append] at hs
    rcases hs with hs | hs
    · split at hs
      · rename_i hc
        simp only [List.mem_singleton] at hs
        subst hs
        exact ⟨by omega, hc.1, hc.2⟩
      · cases hs
    · split at hs
      · rename_i hc
        simp only [List.mem_singleton] at hs
        subst hs
        exact ⟨hc.1, by omega, hc.2⟩
      · cases hs

/-- Witness of C4: with 3 PM booked on 10 January 2024, "today at 3pm" is
rejected with the suggestions "4 PM" and "2 PM", in that order. -/
theorem C4_suggestion_list_witness :
    parseBookingRequest sampleOracle.now sampleOracle.localDayMs "today at 3pm"
      = some ⟨"2024-01-10", some 15⟩ ∧
    isTaken (worldWith [sampleBooking "a1" (JsVal.str "15")]).bookings "2024-01-10" (some 15)
      = true ∧
    suggestions (worldWith [sampleBooking "a1" (JsVal.str "15")]).bookings "2024-01-10"
      (some 15) = ["4 PM", "2 PM"] :=
  ⟨by decide, by decide,
   (C4_suggestion_list sampleOracle "17841400" "today at 3pm" "2024-01-10" 15
      (worldWith [sampleBooking "a1" (JsVal.str "15")])
      (by decide) (by decide) (by decide) (by decide)).1.trans (by decide)⟩

/-! ## C5: the label of a suggestion -/

/-- C5 (evaluation of the code): with 1 PM booked and noon free, "today at 1pm"
is rejected with the earlier neighbour labelled "0 PM", not "12 PM"; the label
the branch renders agrees with the 12-hour PM label for the hours 13 to 22 and
differs from it at 12. -/
theorem C5_noon_suggestion_is_zero_pm :
    isTaken [sampleBooking "a1" (JsVal.num 13)] "2024-01-10" (some 12) = false ∧
    suggestions [sampleBooking "a1" (JsVal.num 13)] "2024-01-10" (some 13)
      = ["2 PM", "0 PM"] ∧
    repliesOf (processInstagramMessage sampleOracle ⟨"17841400", some "today at 1pm"⟩
      (worldWith [sampleBooking "a1" (JsVal.num 13)])).trace
      = [("17841400",
          "âŒ Sorry, 1 PM is taken. Available times near that: 2 PM or 0 PM")] ∧
    suggestionLabel 12 = "0 PM" ∧ pmLabelSpec 12 = "12 PM" ∧
    (∀ s : Int, 13 ≤ s → s ≤ 22 → suggestionLabel s = pmLabelSpec s) := by
  refine ⟨by decide, by decide, by decide, by decide, by decide, ?_⟩
  intro s h13 h22
  have hne : s ≠ 12 := by omega
  simp [suggestionLabel, pmLabelSpec, hne]

/-! ## C6: the booking that is appended -/

theorem utf16_append (a b : String) : utf16 (a ++ b) = utf16 a ++ utf16 b := by
  simp [utf16, String.toList, List.flatMap_append]

theorem utf16_mk (cs : List Char) : utf16 (String.mk cs) = cs.flatMap charUnits := rfl

/-- Where the first `n` characters lie in the Basic Multilingual Plane, the
first `n` code units are those characters. -/
theorem take_utf16_bmp (n : Nat) (cs : List Char)
    (h : ∀ c ∈ cs.take n, c.toNat < 0x10000) :
    (cs.flatMap charUnits).take n = (cs.take n).flatMap charUnits := by
  induction cs generalizing n with
  | nil => simp
  | cons c cs ih =>
    cases n with
    | zero => simp
    | succ n =>
      have hc : c.toNat < 0x10000 := h c (by simp)
      have hrest : ∀ c' ∈ cs.take n, c'.toNat < 0x10000 :=
        fun c' hc' => h c' (by simp [hc'])
      simp only [List.flatMap_cons, List.take_succ_cons]
      rw [show charUnits c = [c.toNat] by simp [charUnits, hc]]
      simp only [List.singleton_append, List.take_succ_cons, ih n hrest]

/-- C6: when a run confirms with booking `b`, the parser returned a date `d` and
an hour `h`, and `b` has date `d`, time the decimal string of `h`, source
"instagram", service "Haircut (Insta)", customer "Instagram User (" followed by
the first four characters of the sender id and ")", and the full sender id as
`instagramId`. The characters are those `substr` counts, the UTF-16 code units
of the sender id; where its first four Unicode characters lie in the Basic
Multilingual Plane, as digits do, they are those four characters. -/
theorem C6_confirmed_booking_fields (o : Oracle) (sid text : String) (w : World)
    (b : Booking)
    (hc : Confirmed sid b w (processInstagramMessage o ⟨sid, some text⟩ w)) :
    ∃ d h, parseBookingRequest o.now o.localDayMs text = some ⟨d, some h⟩ ∧
      b.date = d ∧ b.time = JsVal.str (toString h) ∧ b.source = "instagram" ∧
      b.service = "Haircut (Insta)" ∧
      b.customer = utf16 "Instagram User (" ++ (utf16 sid).take 4 ++ utf16 ")" ∧
      b.instagramId = some sid ∧
      ((∀ c ∈ sid.toList.take 4, c.toNat < 0x10000) →
        b.customer =
          utf16 ("Instagram User (" ++ String.mk (sid.toList.take 4) ++ ")")) := by
  obtain ⟨d, h, hp, _, _, _, hb⟩ := confirmed_inv o sid text w b hc
  subst hb
  refine ⟨d, h, hp, rfl, rfl, rfl, rfl, rfl, rfl, ?_⟩
  intro hbmp
  rw [utf16_append, utf16_append, utf16_mk (sid.toList.take 4),
    ← take_utf16_bmp 4 sid.toList hbmp]
  rfl

/-- Witness of C6: "Haircut tomorrow at 5pm" from sender 17841400123 on an empty
collection is confirmed with a booking for 11 January 2024 at "17". -/
theorem C6_confirmed_booking_fields_witness :
    Confirmed "17841400123" sampleConfirmed (worldWith [])
      (processInstagramMessage sampleOracle ⟨"17841400123", some "Haircut tomorrow at 5pm"⟩
        (worldWith [])) ∧
    ∃ d h, parseBookingRequest sampleOracle.now sampleOracle.localDayMs
        "Haircut tomorrow at 5pm" = some ⟨d, some h⟩ ∧
      sampleConfirmed.date = d ∧ sampleConfirmed.time = JsVal.str (toString h) ∧
      sampleConfirmed.source = "instagram" ∧ sampleConfirmed.service = "Haircut (Insta)" ∧
      sampleConfirmed.customer =
        utf16 "Instagram User (" ++ (utf16 "17841400123").take 4 ++ utf16 ")" ∧
      sampleConfirmed.instagramId = some "17841400123" ∧
      ((∀ c ∈ "17841400123".toList.take 4, c.toNat < 0x10000) →
        sampleConfirmed.customer =
          utf16 ("Instagram User (" ++ String.mk ("17841400123".toList.take 4) ++ ")")) :=
  ⟨by unfold Confirmed; decide,
   C6_confirmed_booking_fields sampleOracle "17841400123" "Haircut tomorrow at 5pm"
     (worldWith []) sampleConfirmed (by unfold Confirmed; decide)⟩

/-- The cut of `substr(0, 4)` on sender ids outside the Basic Multilingual
Plane: three emoji (six code units) are cut after the second, and a letter
followed by two emoji is cut inside the second emoji, whose first surrogate
stays. -/
theorem substr0_examples :
    substr0 "17841400123" 4 = utf16 "1784" ∧
    substr0 (String.mk [Char.ofNat 0x1F600, Char.ofNat 0x1F600, Char.ofNat 0x1F600]) 4
      = utf16 (String.mk [Char.ofNat 0x1F600, Char.ofNat 0x1F600]) ∧
    substr0 (String.mk ['a', Char.ofNat 0x1F600, Char.ofNat 0x1F600]) 4
      = [0x61, 0xD83D, 0xDE00, 0xD83D] ∧
    (newBooking sampleOracle
      (String.mk [Char.ofNat 0x1F600, Char.ofNat 0x1F600, Char.ofNat 0x1F600])
      "2024-01-10" (some 16)).customer =
      utf16 ("Instagram User (" ++ String.mk [Char.ofNat 0x1F600, Char.ofNat 0x1F600] ++ ")") := by
  refine ⟨by decide, by decide, by decide, by decide⟩

/-! ## C7: a confirmed booking makes its slot taken -/

/-- C7: when a run confirms with booking `b` for date `d` and hour `h`, reading
the decimal string of `h` back with `parseInt` gives `h`, so the availability
check for `(d, h)` reports taken on every collection that contains `b`, among
them the collection the run wrote. -/
theorem C7_confirmed_slot_is_taken (o : Oracle) (sid text : String) (w : World)
    (b : Booking)
    (hc : Confirmed sid b w (processInstagramMessage o ⟨sid, some text⟩ w)) :
    ∃ d h, parseBookingRequest o.now o.localDayMs text = some ⟨d, some h⟩ ∧
      b.date = d ∧ b.time = JsVal.str (toString h) ∧
      parseInt (JsVal.str (toString h)) = some h ∧
      (∀ coll : List Booking, b ∈ coll → isTaken coll d (some h) = true) ∧
      isTaken (processInstagramMessage o ⟨sid, some text⟩ w).bookings d (some h) = true := by
  obtain ⟨d, h, hp, h12, h22, _, hb⟩ := confirmed_inv o sid text w b hc
  have hpi := parseInt_toString_hour h h12 h22
  have hall : ∀ coll : List Booking, b ∈ coll → isTaken coll d (some h) = true := by
    intro coll hmem
    simp only [isTaken, List.any_eq_true]
    refine ⟨b, hmem, ?_⟩
    subst hb
    simp [occupies, newBooking, numToString, hpi, jsStrictEq]
  refine ⟨d, h, hp, by subst hb; rfl, by subst hb; rfl, hpi, hall, ?_⟩
  apply hall
  rw [hc.2.2]
  simp

/-- Witness of C7: the booking confirmed for "today at 4" makes 4 PM of
10 January 2024 taken. -/
theorem C7_confirmed_slot_is_taken_witness :
    Confirmed "17841400123" (newBooking sampleOracle "17841400123" "2024-01-10" (some 16))
      (worldWith [sampleBooking "a1" (JsVal.num 15)])
      (processInstagramMessage sampleOracle ⟨"17841400123", some "today at 4"⟩
        (worldWith [sampleBooking "a1" (JsVal.num 15)])) ∧
    ∃ d h, parseBookingRequest sampleOracle.now sampleOracle.localDayMs "today at 4"
        = some ⟨d, some h⟩ ∧
      (newBooking sampleOracle "17841400123" "2024-01-10" (some 16)).date = d ∧
      (newBooking sampleOracle "17841400123" "2024-01-10" (some 16)).time
        = JsVal.str (toString h) ∧
      parseInt (JsVal.str (toString h)) = some h ∧
      (∀ coll : List Booking,
        newBooking sampleOracle "17841400123" "2024-01-10" (some 16) ∈ coll →
        isTaken coll d (some h) = true) ∧
      isTaken (processInstagramMessage sampleOracle ⟨"17841400123", some "today at 4"⟩
        (worldWith [sampleBooking "a1" (JsVal.num 15)])).bookings d (some h) = true :=
  ⟨by unfold Confirmed; decide,
   C7_confirmed_slot_is_taken sampleOracle "17841400123" "today at 4"
     (worldWith [sampleBooking "a1" (JsVal.num 15)])
     (newBooking sampleOracle "17841400123" "2024-01-10" (some 16))
     (by unfold Confirmed; decide)⟩

/-! ## C8: the conflict invariant -/

theorem filter_occupies_nil (bookings : List Booking) (d : String) (h : JsNum)
    (ht : isTaken bookings d h = false) : bookings.filter (occupies d h) = [] := by
  simp only [isTaken, List.any_eq_false] at ht
  simp only [List.filter_eq_nil_iff]
  exact ht

/-- C8: every run of the bot keeps the invariant that no pair of a date and an
integer hour has two bookings: if the collection satisfies it before the run,
the collection after the run (with the new booking appended, when the run
confirms) satisfies it too; and a run whose parsed slot is taken in the
collection leaves the collection as it is. -/
theorem C8_no_double_booking_preserved (o : Oracle) (event : MessageEvent) (w : World)
    (hinv : NoDoubleBooking w.bookings) :
    NoDoubleBooking (processInstagramMessage o event w).bookings ∧
    (∀ text d h, event.text = some text →
      parseBookingRequest o.now o.localDayMs text = some ⟨d, some h⟩ →
      isTaken w.bookings d (some h) = true →
      (processInstagramMessage o event w).bookings = w.bookings) := by
  obtain ⟨sid, txt⟩ := event
  cases txt with
  | none => exact ⟨hinv, fun _ _ _ _ _ _ => rfl⟩
  | some text =>
    by_cases hne : text = ""
    · subst hne
      exact ⟨hinv, fun _ _ _ _ _ _ => rfl⟩
    · rcases process_cases o sid text w hne with
        ⟨_, hc⟩ | ⟨_, _, _, _, hc⟩ | ⟨_, _, _, _, _, _, hc⟩ | ⟨d, h, hp, h12, h22, ht, hc⟩
      · exact ⟨by rw [hc.2.2]; exact hinv, fun _ _ _ _ _ _ => hc.2.2⟩
      · exact ⟨by rw [hc.2.2]; exact hinv, fun _ _ _ _ _ _ => hc.2.2⟩
      · exact ⟨by rw [hc.2.2]; exact hinv, fun _ _ _ _ _ _ => hc.2.2⟩
      · constructor
        · rw [hc.2.2]
          intro d' h'
          rw [List.filter_append, List.length_append]
          by_cases hocc : occupies d' (some h') (newBooking o sid d (some h)) = true
          · have hpi := parseInt_toString_hour h h12 h22
            simp only [occupies, newBooking, numToString, hpi, jsStrictEq,
              Bool.and_eq_true, decide_eq_true_eq] at hocc
            obtain ⟨hd, hh⟩ := hocc
            subst hd
            subst hh
            rw [filter_occupies_nil _ _ _ ht]
            simp only [List.length_nil, Nat.zero_add]
            exact List.length_filter_le _ _
          · have hn : [newBooking o sid d (some h)].filter (occupies d' (some h')) = [] := by
              simp [List.filter_cons, hocc]
            rw [hn]
            simpa using hinv d' h'
        · intro text' d' h' htxt hp' ht'
          simp only [Option.some.injEq] at htxt
          subst htxt
          rw [hp] at hp'
          simp only [Option.some.injEq, Intent.mk.injEq] at hp'
          obtain ⟨hd, hh⟩ := hp'
          subst hd
          subst hh
          rw [ht] at ht'
          cases ht'

/-- Witness of C8: with 3 PM booked, "today at 4" is confirmed and the two
bookings are on different hours. -/
theorem C8_no_double_booking_preserved_witness :
    NoDoubleBooking (worldWith [sampleBooking "a1" (JsVal.num 15)]).bookings ∧
    NoDoubleBooking (processInstagramMessage sampleOracle
      ⟨"17841400123", some "today at 4"⟩
      (worldWith [sampleBooking "a1" (JsVal.num 15)])).bookings ∧
    (processInstagramMessage sampleOracle ⟨"17841400123", some "today at 4"⟩
      (worldWith [sampleBooking "a1" (JsVal.num 15)])).bookings =
      [sampleBooking "a1" (JsVal.num 15),
       newBooking sampleOracle "17841400123" "2024-01-10" (some 16)] :=
  ⟨fun _ _ => List.length_filter_le _ _,
   (C8_no_double_booking_preserved sampleOracle ⟨"17841400123", some "today at 4"⟩
     (worldWith [sampleBooking "a1" (JsVal.num 15)])
     (fun _ _ => List.length_filter_le _ _)).1,
   by decide⟩

/-! ## C9: one outcome per message -/

/-- C9 (as amended): for every non-empty message text and every booking
collection, the run has exactly one of the four outcomes clarification,
out-of-hours, slot-taken and confirmed; it issues exactly one reply, and the
booking collection changes only in the confirmed outcome. -/
theorem C9_exactly_one_outcome (o : Oracle) (sid text : String) (w : World)
    (hne : text ≠ "") :
    (Clarification sid w (processInstagramMessage o ⟨sid, some text⟩ w) ∨
      OutOfHours sid w (processInstagramMessage o ⟨sid, some text⟩ w) ∨
      (∃ h s, SlotTaken sid h s w (processInstagramMessage o ⟨sid, some text⟩ w)) ∨
      (∃ b, Confirmed sid b w (processInstagramMessage o ⟨sid, some text⟩ w))) ∧
    ¬ (Clarification sid w (processInstagramMessage o ⟨sid, some text⟩ w) ∧
      OutOfHours sid w (processInstagramMessage o ⟨sid, some text⟩ w)) ∧
    ¬ (Clarification sid w (processInstagramMessage o ⟨sid, some text⟩ w) ∧
      ∃ h s, SlotTaken sid h s w (processInstagramMessage o ⟨sid, some text⟩ w)) ∧
    ¬ (Clarification sid w (processInstagramMessage o ⟨sid, some text⟩ w) ∧
      ∃ b, Confirmed sid b w (processInstagramMessage o ⟨sid, some text⟩ w)) ∧
    ¬ (OutOfHours sid w (processInstagramMessage o ⟨sid, some text⟩ w) ∧
      ∃ h s, SlotTaken sid h s w (processInstagramMessage o ⟨sid, some text⟩ w)) ∧
    ¬ (OutOfHours sid w (processInstagramMessage o ⟨sid, some text⟩ w) ∧
      ∃ b, Confirmed sid b w (processInstagramMessage o ⟨sid, some text⟩ w)) ∧
    ¬ ((∃ h s, SlotTaken sid h s w (processInstagramMessage o ⟨sid, some text⟩ w)) ∧
      ∃ b, Confirmed sid b w (processInstagramMessage o ⟨sid, some text⟩ w)) ∧
    (repliesOf (newEvents w (processInstagramMessage o ⟨sid, some text⟩ w))).length = 1 ∧
    ((processInstagramMessage o ⟨sid, some text⟩ w).bookings ≠ w.bookings →
      ∃ b, Confirmed sid b w (processInstagramMessage o ⟨sid, some text⟩ w)) := by
  refine ⟨?_, ?_, ?_, ?_, ?_, ?_, ?_, ?_, ?_⟩
  · rcases process_cases o sid text w hne with
      ⟨_, hc⟩ | ⟨_, _, _, _, hc⟩ | ⟨_, _, _, _, _, _, hc⟩ | ⟨_, _, _, _, _, _, hc⟩
    · exact Or.inl hc
    · exact Or.inr (Or.inl hc)
    · exact Or.inr (Or.inr (Or.inl ⟨_, _, hc⟩))
    · exact Or.inr (Or.inr (Or.inr ⟨_, hc⟩))
  · rintro ⟨h1, h2⟩
    have h := h1.1.symm.trans h2.1
    simp only [List.cons.injEq, Prod.mk.injEq, true_and, and_true] at h
    exact helpPrompt_ne_closedReply h
  · rintro ⟨h1, _, _, h2⟩
    have h := h1.2.1.symm.trans h2.2.1
    cases h
  · rintro ⟨h1, _, h2⟩
    have h := h1.2.1.symm.trans h2.2.1
    cases h
  · rintro ⟨h1, _, _, h2⟩
    have h := h1.2.1.symm.trans h2.2.1
    cases h
  · rintro ⟨h1, _, h2⟩
    have h := h1.2.1.symm.trans h2.2.1
    cases h
  · rintro ⟨⟨_, _, h1⟩, _, h2⟩
    have h := h1.2.1.symm.trans h2.2.1
    cases h
  · rcases process_cases o sid text w hne with
      ⟨_, hc⟩ | ⟨_, _, _, _, hc⟩ | ⟨_, _, _, _, _, _, hc⟩ | ⟨_, _, _, _, _, _, hc⟩ <;>
      rw [hc.1] <;> rfl
  · intro hchg
    rcases process_cases o sid text w hne with
      ⟨_, hc⟩ | ⟨_, _, _, _, hc⟩ | ⟨_, _, _, _, _, _, hc⟩ | ⟨_, _, _, _, _, _, hc⟩
    · exact absurd hc.2.2 hchg
    · exact absurd hc.2.2 hchg
    · exact absurd hc.2.2 hchg
    · exact ⟨_, hc⟩

/-- Witness of C9: "today at 3pm" against a collection with 3 PM booked. -/
theorem C9_exactly_one_outcome_witness :
    "today at 3pm" ≠ "" ∧
    (repliesOf (newEvents (worldWith [sampleBooking "a1" (JsVal.str "15")])
      (processInstagramMessage sampleOracle ⟨"17841400123", some "today at 3pm"⟩
        (worldWith [sampleBooking "a1" (JsVal.str "15")])))).length = 1 :=
  ⟨by decide,
   (C9_exactly_one_outcome sampleOracle "17841400123" "today at 3pm"
     (worldWith [sampleBooking "a1" (JsVal.str "15")]) (by decide)).2.2.2.2.2.2.2.1⟩

/-- Counterexample to C9 as stated: for the empty text the run has none of the
four outcomes and issues no reply. -/
theorem C9_empty_text_has_no_outcome :
    repliesOf (newEvents (worldWith [])
      (processInstagramMessage sampleOracle ⟨"17841400123", some ""⟩ (worldWith []))) = [] ∧
    ¬ (Clarification "17841400123" (worldWith [])
        (processInstagramMessage sampleOracle ⟨"17841400123", some ""⟩ (worldWith [])) ∨
      OutOfHours "17841400123" (worldWith [])
        (processInstagramMessage sampleOracle ⟨"17841400123", some ""⟩ (worldWith [])) ∨
      (∃ h s, SlotTaken "17841400123" h s (worldWith [])
        (processInstagramMessage sampleOracle ⟨"17841400123", some ""⟩ (worldWith []))) ∨
      (∃ b, Confirmed "17841400123" b (worldWith [])
        (processInstagramMessage sampleOracle ⟨"17841400123", some ""⟩ (worldWith [])))) := by
  refine ⟨by decide, ?_⟩
  rw [process_empty]
  rintro (h | h | ⟨_, _, h⟩ | ⟨_, h⟩)
  · have h1 := h.1
    rw [newEvents_self] at h1
    cases h1
  · have h1 := h.1
    rw [newEvents_self] at h1
    cases h1
  · have h1 := h.1
    rw [newEvents_self] at h1
    cases h1
  · have h1 := h.1
    rw [newEvents_self] at h1
    cases h1

/-! ## C10: meridiem normalisation -/

/-- C10: when the lower-cased text has a keyword and its first hour match
captures the number `n` with marker `m`, the parser returns the hour `n+12` when
`m` is "pm" and `n < 12`, `0` when `m` is "am" and `n = 12`, `n+12` when there is
no marker and `n < 10`, and `n` otherwise. -/
theorem C10_meridiem_normalisation (now localDayMs : Nat) (text : String) (m : TimeMatch)
    (hk : includes (toLowerCase text) "today" = true ∨
      includes (toLowerCase text) "tomorrow" = true)
    (hm : timeMatch (toLowerCase text) = some m) :
    ∃ (n : Int) (d : String), parseInt (JsVal.str m.digits) = some n ∧
      parseBookingRequest now localDayMs text =
        some ⟨d, some (normalisedHourSpec n m.meridiem)⟩ := by
  obtain ⟨⟨n, hn, _, _⟩, _⟩ := matchChars_some _ _ hm
  obtain ⟨d, hd⟩ := parse_of_match now localDayMs text m n hk hm hn
  exact ⟨n, d, hn, hd⟩

/-- Witness of C10: "today at 4" captures 4 with no marker. -/
theorem C10_meridiem_normalisation_witness :
    (includes (toLowerCase "today at 4") "today" = true ∨
      includes (toLowerCase "today at 4") "tomorrow" = true) ∧
    timeMatch (toLowerCase "today at 4") = some ⟨"4", none, none⟩ ∧
    normalisedHourSpec 4 none = 16 ∧
    ∃ (n : Int) (d : String), parseInt (JsVal.str "4") = some n ∧
      parseBookingRequest 1704899000000 msPerDay "today at 4" =
        some ⟨d, some (normalisedHourSpec n none)⟩ :=
  ⟨by decide, by decide, by decide,
   C10_meridiem_normalisation 1704899000000 msPerDay "today at 4" ⟨"4", none, none⟩
     (by decide) (by decide)⟩

/-- The examples of C10, at every clock reading. -/
theorem parse_hour_examples (now localDayMs : Nat) :
    (parseBookingRequest now localDayMs "today at 4").map Intent.hour = some (some 16) ∧
    (parseBookingRequest now localDayMs "today at 12").map Intent.hour = some (some 12) ∧
    (parseBookingRequest now localDayMs "today at 9am").map Intent.hour = some (some 9) ∧
    (parseBookingRequest now localDayMs "today at 12pm").map Intent.hour = some (some 12) ∧
    (parseBookingRequest now localDayMs "today at 12am").map Intent.hour = some (some 0) ∧
    (parseBookingRequest now localDayMs "tomorrow at 5pm").map Intent.hour = some (some 17) :=
  ⟨rfl, rfl, rfl, rfl, rfl, rfl⟩

/-! ## C12: the range of the parsed hour -/

theorem normalisedHourSpec_range (n : Int) (mer : Option String) (h0 : 0 ≤ n) (h99 : n ≤ 99) :
    0 ≤ normalisedHourSpec n mer ∧ normalisedHourSpec n mer ≤ 99 ∧
    (normalisedHourSpec n mer ≤ 23 ↔ n ≤ 23) := by
  unfold normalisedHourSpec
  split_ifs <;> omega

/-- C12 (as amended): every non-null result of `parseBookingRequest` carries an
hour that is an integer from 0 to 99; it is at most 23 exactly when the number
captured by the hour pattern is at most 23 (a capture from 24 to 99 is returned
as it is). -/
theorem C12_hour_range (now localDayMs : Nat) (text : String) (i : Intent)
    (hp : parseBookingRequest now localDayMs text = some i) :
    ∃ (m : TimeMatch) (n h : Int), timeMatch (toLowerCase text) = some m ∧
      parseInt (JsVal.str m.digits) = some n ∧ i.hour = some h ∧
      0 ≤ h ∧ h ≤ 99 ∧ (h ≤ 23 ↔ n ≤ 23) := by
  obtain ⟨m, n, _, hm, hn, h0, h99, hh⟩ := parse_some now localDayMs text i hp
  obtain ⟨r0, r99, r23⟩ := normalisedHourSpec_range n m.meridiem h0 h99
  exact ⟨m, n, _, hm, hn, hh, r0, r99, r23⟩

/-- Witness of C12: "tomorrow at 5pm" carries hour 17. -/
theorem C12_hour_range_witness :
    parseBookingRequest 1704899000000 msPerDay "tomorrow at 5pm"
      = some ⟨"2024-01-11", some 17⟩ ∧
    ∃ (m : TimeMatch) (n h : Int), timeMatch (toLowerCase "tomorrow at 5pm") = some m ∧
      parseInt (JsVal.str m.digits) = some n ∧
      (Intent.mk "2024-01-11" (some 17)).hour = some h ∧
      0 ≤ h ∧ h ≤ 99 ∧ (h ≤ 23 ↔ n ≤ 23) :=
  ⟨by decide,
   C12_hour_range 1704899000000 msPerDay "tomorrow at 5pm" ⟨"2024-01-11", some 17⟩
     (by decide)⟩

/-- Counterexample to C12 as stated: "today at 99" is parsed to hour 99 and
"today at 25pm" to hour 25, both outside 0 to 23. -/
theorem C12_hour_above_23 :
    parseBookingRequest 1704899000000 msPerDay "today at 99"
      = some ⟨"2024-01-10", some 99⟩ ∧
    parseBookingRequest 1704899000000 msPerDay "today at 25pm"
      = some ⟨"2024-01-10", some 25⟩ ∧
    ¬ ((99 : Int) ≤ 23) ∧ ¬ ((25 : Int) ≤ 23) := by
  refine ⟨by decide, by decide, by decide, by decide⟩

/-! ## C16: existing bookings are left alone -/

/-- C16: for every event and every stored collection, the collection after the
run is either the collection before it, and then the run is not a confirmed
one, or the collection before it with the one booking of the confirmed outcome
appended at the end; in both cases the collection before the run is a prefix of
the collection after it. -/
theorem C16_bookings_only_appended (o : Oracle) (event : MessageEvent) (w : World) :
    (((processInstagramMessage o event w).bookings = w.bookings ∧
        ¬ ∃ b, Confirmed event.senderId b w (processInstagramMessage o event w)) ∨
      (∃ b, Confirmed event.senderId b w (processInstagramMessage o event w) ∧
        (processInstagramMessage o event w).bookings = w.bookings ++ [b])) ∧
    w.bookings <+: (processInstagramMessage o event w).bookings := by
  have hno : ∀ w' : World, w'.bookings = w.bookings →
      ¬ ∃ b, Confirmed event.senderId b w w' := by
    rintro w' heq ⟨b, hb⟩
    have h := congrArg List.length (heq.symm.trans hb.2.2)
    simp at h
  obtain ⟨sid, txt⟩ := event
  cases txt with
  | none => exact ⟨Or.inl ⟨rfl, hno _ rfl⟩, List.prefix_refl _⟩
  | some text =>
    by_cases hne : text = ""
    · subst hne
      exact ⟨Or.inl ⟨rfl, hno _ rfl⟩, List.prefix_refl _⟩
    · rcases process_cases o sid text w hne with
        ⟨_, hc⟩ | ⟨_, _, _, _, hc⟩ | ⟨_, _, _, _, _, _, hc⟩ | ⟨_, _, _, _, _, _, hc⟩
      · exact ⟨Or.inl ⟨hc.2.2, hno _ hc.2.2⟩, by rw [hc.2.2]⟩
      · exact ⟨Or.inl ⟨hc.2.2, hno _ hc.2.2⟩, by rw [hc.2.2]⟩
      · exact ⟨Or.inl ⟨hc.2.2, hno _ hc.2.2⟩, by rw [hc.2.2]⟩
      · exact ⟨Or.inr ⟨_, hc, hc.2.2⟩, by rw [hc.2.2]; exact List.prefix_append _ _⟩

/-! ## C19: a bare 10 or 11 -/

/-- C19: when the lower-cased text has a keyword and its first hour match is
"10" or "11" with no marker, the parser returns that number as the hour, the
run takes the out-of-hours outcome whatever the booking collection holds, and
it does not confirm. -/
theorem C19_bare_ten_eleven (o : Oracle) (sid text : String) (w : World) (m : TimeMatch)
    (hk : includes (toLowerCase text) "today" = true ∨
      includes (toLowerCase text) "tomorrow" = true)
    (hm : timeMatch (toLowerCase text) = some m)
    (hmer : m.meridiem = none) (hd : m.digits = "10" ∨ m.digits = "11") :
    (∃ d h, parseBookingRequest o.now o.localDayMs text = some ⟨d, some h⟩ ∧
      parseInt (JsVal.str m.digits) = some h ∧ (h = 10 ∨ h = 11)) ∧
    OutOfHours sid w (processInstagramMessage o ⟨sid, some text⟩ w) ∧
    ¬ ∃ b, Confirmed sid b w (processInstagramMessage o ⟨sid, some text⟩ w) := by
  have key : ∃ h : Int, parseInt (JsVal.str m.digits) = some h ∧ (h = 10 ∨ h = 11) ∧
      normalisedHourSpec h m.meridiem = h := by
    rcases hd with hd | hd
    · exact ⟨10, by rw [hd]; decide, Or.inl rfl, by rw [hmer]; decide⟩
    · exact ⟨11, by rw [hd]; decide, Or.inr rfl, by rw [hmer]; decide⟩
  obtain ⟨h, hn, hval, hnorm⟩ := key
  obtain ⟨d, hp⟩ := parse_of_match o.now o.localDayMs text m h hk hm hn
  rw [hnorm] at hp
  have hlt : jsLt (some h) (some 12) = true ∨ jsGt (some h) (some 22) = true := by
    left
    simp only [jsLt, decide_eq_true_eq]
    omega
  refine ⟨⟨d, h, hp, hn, hval⟩, process_outOfHours o sid text w ⟨d, some h⟩ hp hlt, ?_⟩
  rintro ⟨b, hb⟩
  obtain ⟨d', h', hp', h12, _, _, _⟩ := confirmed_inv o sid text w b hb
  rw [hp] at hp'
  simp only [Option.some.injEq, Intent.mk.injEq] at hp'
  omega

/-- Witness of C19: "today at 10" with 10 o'clock free in the collection. -/
theorem C19_bare_ten_eleven_witness :
    timeMatch (toLowerCase "today at 10") = some ⟨"10", none, none⟩ ∧
    (parseBookingRequest sampleOracle.now sampleOracle.localDayMs "today at 10").map
      Intent.hour = some (some 10) ∧
    OutOfHours "17841400123" (worldWith [sampleBooking "a1" (JsVal.num 15)])
      (processInstagramMessage sampleOracle ⟨"17841400123", some "today at 10"⟩
        (worldWith [sampleBooking "a1" (JsVal.num 15)])) :=
  ⟨by decide, by decide,
   (C19_bare_ten_eleven sampleOracle "17841400123" "today at 10"
     (worldWith [sampleBooking "a1" (JsVal.num 15)]) ⟨"10", none, none⟩
     (by decide) (by decide) rfl (Or.inl rfl)).2.1⟩

/-! ## Runs on two booking collections -/

theorem logBot_withBookings (o : Oracle) (m : Utf16) (t : String) (bs : List Booking)
    (w : World) :
    logBot o m t (withBookings bs w) = withBookings bs (logBot o m t w) := rfl

theorem send_withBookings (o : Oracle) (r t : String) (bs : List Booking) (w : World) :
    sendInstagramMessage o r t (withBookings bs w) =
      withBookings bs (sendInstagramMessage o r t w) := by
  unfold sendInstagramMessage
  simp only [withBookings, replyToken]
  split
  · rfl
  · split <;> rfl

/-- The run on a world whose collection is `bs`, in terms of the availability
check and the suggestion list on `bs`: the rest of the run does not look at the
collection. -/
theorem process_withBookings (o : Oracle) (sid text : String) (bs : List Booking)
    (w : World) (i : Intent) (hp : parseBookingRequest o.now o.localDayMs text = some i)
    (hh : ¬ (jsLt i.hour (some 12) = true ∨ jsGt i.hour (some 22) = true)) :
    processInstagramMessage o ⟨sid, some text⟩ (withBookings bs w) =
      if isTaken bs i.dateStr i.hour then
        withBookings bs (sendInstagramMessage o sid
          (takenReply i.hour (suggestions bs i.dateStr i.hour))
          (readBookings (logBot o (utf16 ("Received DM: \"" ++ text ++ "\"")) "incoming" w)).2)
      else
        withBookings (bs ++ [newBooking o sid i.dateStr i.hour])
          (sendInstagramMessage o sid (confirmedReply i.dateStr i.hour)
            (logBot o (utf16 ("Created booking for " ++ i.dateStr ++ " @ " ++ numToString i.hour))
              "success"
              (writeBookings []
                (readBookings (readBookings
                  (logBot o (utf16 ("Received DM: \"" ++ text ++ "\"")) "incoming" w)).2).2))) := by
  have hne : text ≠ "" := by
    rintro rfl
    rw [parse_empty] at hp
    cases hp
  simp only [processInstagramMessage, hne, if_false, hp, hh]
  have hb : (readBookings (logBot o (utf16 ("Received DM: \"" ++ text ++ "\"")) "incoming"
      (withBookings bs w))).1 = bs := rfl
  rw [hb]
  split
  · rw [← send_withBookings]
    rfl
  · rw [← send_withBookings]
    rfl

/-- A run that does not reach the availability check does not depend on the
collection. -/
theorem process_withBookings_early (o : Oracle) (sid : String) (txt : Option String)
    (bs : List Booking) (w : World)
    (h : txt = none ∨ txt = some "" ∨
      (∃ text, txt = some text ∧ parseBookingRequest o.now o.localDayMs text = none) ∨
      (∃ text i, txt = some text ∧ parseBookingRequest o.now o.localDayMs text = some i ∧
        (jsLt i.hour (some 12) = true ∨ jsGt i.hour (some 22) = true))) :
    processInstagramMessage o ⟨sid, txt⟩ (withBookings bs w) =
      withBookings bs (processInstagramMessage o ⟨sid, txt⟩ w) := by
  rcases h with rfl | rfl | ⟨text, rfl, hp⟩ | ⟨text, i, rfl, hp, hh⟩
  · rfl
  · rfl
  · by_cases hne : text = ""
    · subst hne
      rfl
    · simp only [processInstagramMessage, hne, if_false, hp]
      rw [← send_withBookings]
      rfl
  · have hne : text ≠ "" := by
      rintro rfl
      rw [parse_empty] at hp
      cases hp
    simp only [processInstagramMessage, hne, if_false, hp, hh, if_true]
    rw [← send_withBookings]
    rfl

theorem outcomes_congr (sid : String) (w1 w2 w1' w2' : World)
    (ht : w1.trace = w2.trace) (ht' : w1'.trace = w2'.trace)
    (hb : (w1'.bookings = w1.bookings ∧ w2'.bookings = w2.bookings) ∨
      ∃ b, w1'.bookings = w1.bookings ++ [b] ∧ w2'.bookings = w2.bookings ++ [b]) :
    (Clarification sid w1 w1' ↔ Clarification sid w2 w2') ∧
    (OutOfHours sid w1 w1' ↔ OutOfHours sid w2 w2') ∧
    (∀ h s, SlotTaken sid h s w1 w1' ↔ SlotTaken sid h s w2 w2') ∧
    (∀ b, Confirmed sid b w1 w1' ↔ Confirmed sid b w2 w2') := by
  have hne : newEvents w1 w1' = newEvents w2 w2' := by
    simp only [newEvents, ht, ht']
  have hsame : w1'.bookings = w1.bookings ↔ w2'.bookings = w2.bookings := by
    rcases hb with ⟨h1, h2⟩ | ⟨b, h1, h2⟩
    · exact ⟨fun _ => h2, fun _ => h1⟩
    · constructor
      · intro h
        have := congrArg List.length (h.symm.trans h1)
        simp at this
      · intro h
        have := congrArg List.length (h.symm.trans h2)
        simp at this
  have happ : ∀ b, w1'.bookings = w1.bookings ++ [b] ↔ w2'.bookings = w2.bookings ++ [b] := by
    intro b'
    rcases hb with ⟨h1, h2⟩ | ⟨b, h1, h2⟩
    · constructor
      · intro h
        have := congrArg List.length (h.symm.trans h1)
        simp at this
      · intro h
        have := congrArg List.length (h.symm.trans h2)
        simp at this
    · rw [h1, h2]
      simp
  simp only [Clarification, OutOfHours, SlotTaken, Confirmed, hne, hsame, happ, iff_self,
    implies_true, and_self]

/-! ## Records whose time is not a number, on a collection of bookings -/

theorem occupies_unparsable (r : Booking) (hr : parseInt r.time = none) (d : String)
    (h : JsNum) : occupies d h r = false := by
  simp [occupies, hr, jsStrictEq]

theorem isTaken_skip (pre post : List Booking) (r : Booking) (hr : parseInt r.time = none)
    (d : String) (h : JsNum) :
    isTaken (pre ++ r :: post) d h = isTaken (pre ++ post) d h := by
  simp [isTaken, List.any_append, List.any_cons, occupies_unparsable r hr]

theorem suggestions_skip (pre post : List Booking) (r : Booking)
    (hr : parseInt r.time = none) (d : String) (h : JsNum) :
    suggestions (pre ++ r :: post) d h = suggestions (pre ++ post) d h := by
  simp only [suggestions, isTaken_skip pre post r hr]

/-- On a collection of `Booking`, where every `time` is a string, a number or
absent, a record whose `time` does not parse to an integer is skipped: putting
it anywhere into the collection, or taking it out, changes neither the
availability check nor the suggestion list, for every date and hour; the run of
`processInstagramMessage` has the same events (the same reply above all) and
the same outcome with and without it, appending the same booking when it
confirms. -/
theorem unparsable_time_is_skipped (o : Oracle) (event : MessageEvent) (w : World)
    (pre post : List Booking) (r : Booking) (hr : parseInt r.time = none) :
    (∀ d h, isTaken (pre ++ r :: post) d h = isTaken (pre ++ post) d h) ∧
    (∀ d h, suggestions (pre ++ r :: post) d h = suggestions (pre ++ post) d h) ∧
    (processInstagramMessage o event (withBookings (pre ++ r :: post) w)).trace =
      (processInstagramMessage o event (withBookings (pre ++ post) w)).trace ∧
    (((processInstagramMessage o event (withBookings (pre ++ r :: post) w)).bookings
          = pre ++ r :: post ∧
        (processInstagramMessage o event (withBookings (pre ++ post) w)).bookings
          = pre ++ post) ∨
      ∃ b,
        (processInstagramMessage o event (withBookings (pre ++ r :: post) w)).bookings
          = (pre ++ r :: post) ++ [b] ∧
        (processInstagramMessage o event (withBookings (pre ++ post) w)).bookings
          = (pre ++ post) ++ [b]) ∧
    (Clarification event.senderId (withBookings (pre ++ r :: post) w)
        (processInstagramMessage o event (withBookings (pre ++ r :: post) w)) ↔
      Clarification event.senderId (withBookings (pre ++ post) w)
        (processInstagramMessage o event (withBookings (pre ++ post) w))) ∧
    (OutOfHours event.senderId (withBookings (pre ++ r :: post) w)
        (processInstagramMessage o event (withBookings (pre ++ r :: post) w)) ↔
      OutOfHours event.senderId (withBookings (pre ++ post) w)
        (processInstagramMessage o event (withBookings (pre ++ post) w))) ∧
    (∀ h s, SlotTaken event.senderId h s (withBookings (pre ++ r :: post) w)
        (processInstagramMessage o event (withBookings (pre ++ r :: post) w)) ↔
      SlotTaken event.senderId h s (withBookings (pre ++ post) w)
        (processInstagramMessage o event (withBookings (pre ++ post) w))) ∧
    (∀ b, Confirmed event.senderId b (withBookings (pre ++ r :: post) w)
        (processInstagramMessage o event (withBookings (pre ++ r :: post) w)) ↔
      Confirmed event.senderId b (withBookings (pre ++ post) w)
        (processInstagramMessage o event (withBookings (pre ++ post) w))) := by
  have hT := isTaken_skip pre post r hr
  have hS := suggestions_skip pre post r hr
  have key :
      (processInstagramMessage o event (withBookings (pre ++ r :: post) w)).trace =
        (processInstagramMessage o event (withBookings (pre ++ post) w)).trace ∧
      (((processInstagramMessage o event (withBookings (pre ++ r :: post) w)).bookings
            = pre ++ r :: post ∧
          (processInstagramMessage o event (withBookings (pre ++ post) w)).bookings
            = pre ++ post) ∨
        ∃ b,
          (processInstagramMessage o event (withBookings (pre ++ r :: post) w)).bookings
            = (pre ++ r :: post) ++ [b] ∧
          (processInstagramMessage o event (withBookings (pre ++ post) w)).bookings
            = (pre ++ post) ++ [b]) := by
    obtain ⟨sid, txt⟩ := event
    have early : ∀ (_ : txt = none ∨ txt = some "" ∨
        (∃ text, txt = some text ∧ parseBookingRequest o.now o.localDayMs text = none) ∨
        (∃ text i, txt = some text ∧ parseBookingRequest o.now o.localDayMs text = some i ∧
          (jsLt i.hour (some 12) = true ∨ jsGt i.hour (some 22) = true))),
        (processInstagramMessage o ⟨sid, txt⟩ (withBookings (pre ++ r :: post) w)).trace =
          (processInstagramMessage o ⟨sid, txt⟩ (withBookings (pre ++ post) w)).trace ∧
        (((processInstagramMessage o ⟨sid, txt⟩
              (withBookings (pre ++ r :: post) w)).bookings = pre ++ r :: post ∧
            (processInstagramMessage o ⟨sid, txt⟩
              (withBookings (pre ++ post) w)).bookings = pre ++ post) ∨
          ∃ b,
            (processInstagramMessage o ⟨sid, txt⟩
              (withBookings (pre ++ r :: post) w)).bookings = (pre ++ r :: post) ++ [b] ∧
            (processInstagramMessage o ⟨sid, txt⟩
              (withBookings (pre ++ post) w)).bookings = (pre ++ post) ++ [b]) := by
      intro h
      rw [process_withBookings_early o sid txt _ w h, process_withBookings_early o sid txt _ w h]
      exact ⟨rfl, Or.inl ⟨rfl, rfl⟩⟩
    cases txt with
    | none => exact early (Or.inl rfl)
    | some text =>
      cases hp : parseBookingRequest o.now o.localDayMs text with
      | none => exact early (Or.inr (Or.inr (Or.inl ⟨text, rfl, hp⟩)))
      | some i =>
        by_cases hh : jsLt i.hour (some 12) = true ∨ jsGt i.hour (some 22) = true
        · exact early (Or.inr (Or.inr (Or.inr ⟨text, i, rfl, hp, hh⟩)))
        · rw [process_withBookings o sid text _ w i hp hh,
            process_withBookings o sid text _ w i hp hh, hT, hS]
          split
          · exact ⟨rfl, Or.inl ⟨rfl, rfl⟩⟩
          · exact ⟨rfl, Or.inr ⟨_, rfl, rfl⟩⟩
  obtain ⟨htr, hbk⟩ := key
  obtain ⟨c1, c2, c3, c4⟩ := outcomes_congr event.senderId
    (withBookings (pre ++ r :: post) w) (withBookings (pre ++ post) w) _ _ rfl htr hbk
  exact ⟨hT, hS, htr, hbk, c1, c2, c3, c4⟩

/-- A record with time "soon" between two bookings; "today at 3pm" is rejected
with and without it. -/
theorem unparsable_time_is_skipped_example :
    parseInt (sampleBooking "x9" (JsVal.str "soon")).time = none ∧
    parseInt (sampleBooking "x8" JsVal.undefined).time = none ∧
    (processInstagramMessage sampleOracle ⟨"17841400123", some "today at 3pm"⟩
      (withBookings ([sampleBooking "a1" (JsVal.num 15)] ++
        sampleBooking "x9" (JsVal.str "soon") :: [sampleBooking "a2" (JsVal.str "16")])
        (worldWith []))).trace =
    (processInstagramMessage sampleOracle ⟨"17841400123", some "today at 3pm"⟩
      (withBookings ([sampleBooking "a1" (JsVal.num 15)] ++
        [sampleBooking "a2" (JsVal.str "16")]) (worldWith []))).trace :=
  ⟨by decide, by decide,
   (unparsable_time_is_skipped sampleOracle ⟨"17841400123", some "today at 3pm"⟩
     (worldWith []) [sampleBooking "a1" (JsVal.num 15)] [sampleBooking "a2" (JsVal.str "16")]
     (sampleBooking "x9" (JsVal.str "soon")) (by decide)).2.2.1⟩

/-! ## C14: the text of the rejection -/

theorem includes_takenReply (h : Int) (h12 : 12 ≤ h) (h22 : h ≤ 22) (t1 t2 : Bool) :
    let sugg :=
      ((if h + 1 ≤ 22 ∧ t1 = false then [h + 1] else []) ++
        (if h - 1 ≥ 12 ∧ t2 = false then [h - 1] else [])).map suggestionLabel
    (sugg = [] →
      includes (takenReply (some h) sugg) "Fully booked around that time." = true ∧
      includes (takenReply (some h) sugg) "Available times near that:" = false) ∧
    (sugg ≠ [] →
      includes (takenReply (some h) sugg) "Fully booked around that time." = false ∧
      includes (takenReply (some h) sugg) ("Available times near that: " ++ joinOr sugg)
        = true) := by
  interval_cases h <;> cases t1 <;> cases t2 <;> decide

/-- C14: for an in-hours request whose slot is taken, the one reply is the
rejection with the suggestion list; when neither neighbour qualifies (each of
`h+1` and `h-1` is occupied or outside 12 to 22) the list is empty and the reply
contains "Fully booked around that time." and no "Available times near that:";
when a neighbour qualifies the reply contains "Available times near that: "
followed by the suggestions joined by " or ", and not the fully-booked
sentence. -/
theorem C14_rejection_text (o : Oracle) (sid text d : String) (h : Int) (w : World)
    (hp : parseBookingRequest o.now o.localDayMs text = some ⟨d, some h⟩)
    (h12 : 12 ≤ h) (h22 : h ≤ 22) (ht : isTaken w.bookings d (some h) = true) :
    repliesOf (newEvents w (processInstagramMessage o ⟨sid, some text⟩ w)) =
      [(sid, takenReply (some h) (suggestions w.bookings d (some h)))] ∧
    (((22 < h + 1 ∨ isTaken w.bookings d (some (h + 1)) = true) ∧
        (h - 1 < 12 ∨ isTaken w.bookings d (some (h - 1)) = true)) →
      suggestions w.bookings d (some h) = [] ∧
      includes (takenReply (some h) (suggestions w.bookings d (some h)))
        "Fully booked around that time." = true ∧
      includes (takenReply (some h) (suggestions w.bookings d (some h)))
        "Available times near that:" = false) ∧
    (¬ ((22 < h + 1 ∨ isTaken w.bookings d (some (h + 1)) = true) ∧
        (h - 1 < 12 ∨ isTaken w.bookings d (some (h - 1)) = true)) →
      suggestions w.bookings d (some h) ≠ [] ∧
      includes (takenReply (some h) (suggestions w.bookings d (some h)))
        ("Available times near that: " ++ joinOr (suggestions w.bookings d (some h)))
        = true ∧
      includes (takenReply (some h) (suggestions w.bookings d (some h)))
        "Fully booked around that time." = false) := by
  have hin := (in_hours_iff h).mpr ⟨h12, h22⟩
  have hs := process_slotTaken o sid text w ⟨d, some h⟩ hp hin ht
  have hinc := includes_takenReply h h12 h22 (isTaken w.bookings d (some (h + 1)))
    (isTaken w.bookings d (some (h - 1)))
  simp only at hinc
  have hsug : suggestions w.bookings d (some h) =
      ((if h + 1 ≤ 22 ∧ isTaken w.bookings d (some (h + 1)) = false then [h + 1] else []) ++
        (if h - 1 ≥ 12 ∧ isTaken w.bookings d (some (h - 1)) = false then [h - 1]
          else [])).map suggestionLabel := suggestions_eq _ _ _
  rw [← hsug] at hinc
  have hnil : suggestions w.bookings d (some h) = [] ↔
      ((22 < h + 1 ∨ isTaken w.bookings d (some (h + 1)) = true) ∧
        (h - 1 < 12 ∨ isTaken w.bookings d (some (h - 1)) = true)) := by
    rw [hsug]
    cases isTaken w.bookings d (some (h + 1)) <;> cases isTaken w.bookings d (some (h - 1)) <;>
      by_cases b1 : h + 1 ≤ 22 <;> by_cases b2 : h - 1 ≥ 12 <;> simp [b1, b2] <;> omega
  refine ⟨hs.1, fun hc => ?_, fun hc => ?_⟩
  · have hn := hnil.mpr hc
    exact ⟨hn, hinc.1 hn⟩
  · have hn : suggestions w.bookings d (some h) ≠ [] := fun e => hc (hnil.mp e)
    exact ⟨hn, (hinc.2 hn).2, (hinc.2 hn).1⟩

/-- Witness of C14: noon and 1 PM of 10 January 2024 are booked and "today at
12" is asked for; 11 is below the range and 13 is occupied. -/
theorem C14_rejection_text_witness :
    parseBookingRequest sampleOracle.now sampleOracle.localDayMs "today at 12"
      = some ⟨"2024-01-10", some 12⟩ ∧
    isTaken [sampleBooking "a1" (JsVal.str "12"), sampleBooking "a2" (JsVal.str "13")]
      "2024-01-10" (some 12) = true ∧
    repliesOf (newEvents
      (worldWith [sampleBooking "a1" (JsVal.str "12"), sampleBooking "a2" (JsVal.str "13")])
      (processInstagramMessage sampleOracle ⟨"17841400123", some "today at 12"⟩
        (worldWith [sampleBooking "a1" (JsVal.str "12"),
          sampleBooking "a2" (JsVal.str "13")]))) =
      [("17841400123", "âŒ Sorry, 12 PM is taken. Fully booked around that time.")] :=
  ⟨by decide, by decide,
   (C14_rejection_text sampleOracle "17841400123" "today at 12" "2024-01-10" 12
     (worldWith [sampleBooking "a1" (JsVal.str "12"), sampleBooking "a2" (JsVal.str "13")])
     (by decide) (by decide) (by decide) (by decide)).1.trans (by decide)⟩

/-! ## C15: two runs on the same input -/

/-- C15 (as amended): two runs on the same event and the same booking
collection, at the same clock reading, send the same reply (which carries the
requested hour and the suggestions), make the same accesses to the collection,
and either both leave it as it is or both append a booking for the same date
and hour; the two bookings agree in every field except `id`, which each run
draws afresh. -/
theorem C15_same_decision_up_to_id (o1 o2 : Oracle) (event : MessageEvent) (w1 w2 : World)
    (hnow : o1.now = o2.now) (hday : o1.localDayMs = o2.localDayMs)
    (hb : w1.bookings = w2.bookings) :
    repliesOf (newEvents w1 (processInstagramMessage o1 event w1)) =
      repliesOf (newEvents w2 (processInstagramMessage o2 event w2)) ∧
    bookingAccesses (newEvents w1 (processInstagramMessage o1 event w1)) =
      bookingAccesses (newEvents w2 (processInstagramMessage o2 event w2)) ∧
    (((processInstagramMessage o1 event w1).bookings = w1.bookings ∧
        (processInstagramMessage o2 event w2).bookings = w2.bookings) ∨
      ∃ d h,
        (processInstagramMessage o1 event w1).bookings =
          w1.bookings ++ [newBooking o1 event.senderId d h] ∧
        (processInstagramMessage o2 event w2).bookings =
          w2.bookings ++ [newBooking o2 event.senderId d h] ∧
        newBooking o1 event.senderId d h =
          { newBooking o2 event.senderId d h with id := o1.bookingId }) := by
  obtain ⟨sid, txt⟩ := event
  cases txt with
  | none =>
    refine ⟨?_, ?_, Or.inl ⟨rfl, rfl⟩⟩ <;>
      simp [processInstagramMessage, newEvents_self]
  | some text =>
    by_cases hne : text = ""
    · subst hne
      refine ⟨?_, ?_, Or.inl ⟨rfl, rfl⟩⟩ <;>
        simp [process_empty, newEvents_self]
    · rcases process_cases o1 sid text w1 hne with
        ⟨hp, hc⟩ | ⟨d, h, hp, hr, hc⟩ | ⟨d, h, hp, h12, h22, ht, hc⟩ |
        ⟨d, h, hp, h12, h22, ht, hc⟩
      · have hc2 := process_clarification o2 sid text w2 hne (by rw [← hnow, ← hday]; exact hp)
        exact ⟨hc.1.trans hc2.1.symm, hc.2.1.trans hc2.2.1.symm, Or.inl ⟨hc.2.2, hc2.2.2⟩⟩
      · have hj : jsLt (some h) (some 12) = true ∨ jsGt (some h) (some 22) = true := by
          simpa [jsLt, jsGt] using hr
        have hc2 := process_outOfHours o2 sid text w2 ⟨d, some h⟩
          (by rw [← hnow, ← hday]; exact hp) hj
        exact ⟨hc.1.trans hc2.1.symm, hc.2.1.trans hc2.2.1.symm, Or.inl ⟨hc.2.2, hc2.2.2⟩⟩
      · have hin := (in_hours_iff h).mpr ⟨h12, h22⟩
        have hc2 := process_slotTaken o2 sid text w2 ⟨d, some h⟩
          (by rw [← hnow, ← hday]; exact hp) hin (by rw [← hb]; exact ht)
        simp only [← hb] at hc2
        exact ⟨hc.1.trans hc2.1.symm, hc.2.1.trans hc2.2.1.symm, Or.inl ⟨hc.2.2, hc2.2.2⟩⟩
      · have hin := (in_hours_iff h).mpr ⟨h12, h22⟩
        have hc1 := process_confirmed o1 sid text w1 ⟨d, some h⟩ hp hin ht
        have hc2 := process_confirmed o2 sid text w2 ⟨d, some h⟩
          (by rw [← hnow, ← hday]; exact hp) hin (by rw [← hb]; exact ht)
        exact ⟨hc1.1.trans hc2.1.symm, hc1.2.1.trans hc2.2.1.symm,
          Or.inr ⟨d, some h, hc1.2.2, hc2.2.2, rfl⟩⟩

/-- Witness of C15: "today at 4" twice, with two draws for the identifier. -/
theorem C15_same_decision_up_to_id_witness :
    sampleOracle.now = sampleOracleRedrawn.now ∧
    repliesOf (newEvents (worldWith [])
      (processInstagramMessage sampleOracle ⟨"17841400123", some "today at 4"⟩
        (worldWith []))) =
    repliesOf (newEvents (worldWith [])
      (processInstagramMessage sampleOracleRedrawn ⟨"17841400123", some "today at 4"⟩
        (worldWith []))) :=
  ⟨rfl, (C15_same_decision_up_to_id sampleOracle sampleOracleRedrawn
    ⟨"17841400123", some "today at 4"⟩ (worldWith []) (worldWith []) rfl rfl rfl).1⟩

/-- Counterexample to C15 as stated: two runs on "today at 4" and the empty
collection, at the same clock reading, are both confirmed but persist different
bookings, one with id "k3j9x0q1z" and one with id "p7m2c4r8t". -/
theorem C15_fresh_id_differs :
    (processInstagramMessage sampleOracle ⟨"17841400123", some "today at 4"⟩
      (worldWith [])).bookings =
      [newBooking sampleOracle "17841400123" "2024-01-10" (some 16)] ∧
    (processInstagramMessage sampleOracleRedrawn ⟨"17841400123", some "today at 4"⟩
      (worldWith [])).bookings =
      [newBooking sampleOracleRedrawn "17841400123" "2024-01-10" (some 16)] ∧
    (processInstagramMessage sampleOracle ⟨"17841400123", some "today at 4"⟩
      (worldWith [])).bookings ≠
    (processInstagramMessage sampleOracleRedrawn ⟨"17841400123", some "today at 4"⟩
      (worldWith [])).bookings := by
  refine ⟨by decide, by decide, by decide⟩

/-! ## C18: when the parser returns a result -/

theorem matchChars_isSome_iff (s : List Char) :
    (matchChars s).isSome = true ↔ ∃ c ∈ s, isDigit c = true := by
  induction s with
  | nil => simp [matchChars]
  | cons c cs ih =>
    by_cases hc : isDigit c = true
    · simp [matchChars, matchAt, hc]
    · have hm : matchAt (c :: cs) = none := by simp [matchAt, hc]
      simp only [matchChars, hm, ih, List.mem_cons, exists_eq_or_imp, hc, false_or]
      simp

theorem matchChars_digits (s : List Char) (m : TimeMatch) (h : matchChars s = some m) :
    m.digits = String.mk (leftmostDigitsSpec s) := by
  induction s with
  | nil => simp [matchChars] at h
  | cons c cs ih =>
    by_cases hc : isDigit c = true
    · simp only [matchChars, matchAt, hc, if_true, Option.some.injEq] at h
      subst h
      cases cs with
      | nil => simp [leftmostDigitsSpec, hc]
      | cons d ds =>
        by_cases hd : isDigit d = true
        · simp [leftmostDigitsSpec, hc, hd]
        · simp [leftmostDigitsSpec, hc, hd]
    · have hm : matchAt (c :: cs) = none := by simp [matchAt, hc]
      simp only [matchChars, hm] at h
      rw [ih h]
      simp [leftmostDigitsSpec, hc]

/-- C18: `parseBookingRequest` returns a result exactly when the lower-cased
text contains "today" or "tomorrow" and has a decimal digit; the hour of the
result is the normalised value of the first one or two digits of the leftmost
run of digits, whatever that run stands for: "2 people today at 5pm" yields
hour 14. -/
theorem C18_result_iff_keyword_and_digit (now localDayMs : Nat) (text : String) :
    ((parseBookingRequest now localDayMs text).isSome = true ↔
      (includes (toLowerCase text) "today" = true ∨
        includes (toLowerCase text) "tomorrow" = true) ∧
      ∃ c ∈ (toLowerCase text).toList, isDigit c = true) ∧
    (∀ i, parseBookingRequest now localDayMs text = some i →
      ∃ (m : TimeMatch) (n : Int), timeMatch (toLowerCase text) = some m ∧
        m.digits = String.mk (leftmostDigitsSpec (toLowerCase text).toList) ∧
        parseInt (JsVal.str m.digits) = some n ∧
        i.hour = some (normalisedHourSpec n m.meridiem)) ∧
    (parseBookingRequest now localDayMs "2 people today at 5pm").map Intent.hour
      = some (some 14) := by
  refine ⟨⟨?_, ?_⟩, ?_, rfl⟩
  · intro hs
    obtain ⟨i, hi⟩ := Option.isSome_iff_exists.mp hs
    obtain ⟨m, n, hk, hm, _⟩ := parse_some now localDayMs text i hi
    refine ⟨hk, (matchChars_isSome_iff _).mp ?_⟩
    unfold timeMatch at hm
    rw [hm]
    rfl
  · rintro ⟨hk, hdig⟩
    have hs := (matchChars_isSome_iff _).mpr hdig
    obtain ⟨m, hm⟩ := Option.isSome_iff_exists.mp hs
    obtain ⟨⟨n, hn, _, _⟩, _⟩ := matchChars_some _ _ hm
    obtain ⟨d, hd⟩ := parse_of_match now localDayMs text m n hk hm hn
    rw [hd]
    rfl
  · intro i hi
    obtain ⟨m, n, _, hm, hn, _, _, hh⟩ := parse_some now localDayMs text i hi
    exact ⟨m, n, hm, matchChars_digits _ _ hm, hn, hh⟩

/-- Witness of C18: "2 people today at 5pm" is read from its leading "2". -/
theorem C18_result_iff_keyword_and_digit_witness :
    leftmostDigitsSpec (toLowerCase "2 people today at 5pm").toList = ['2'] ∧
    ∃ (m : TimeMatch) (n : Int),
      timeMatch (toLowerCase "2 people today at 5pm") = some m ∧
      m.digits = String.mk (leftmostDigitsSpec (toLowerCase "2 people today at 5pm").toList) ∧
      parseInt (JsVal.str m.digits) = some n ∧
      (Intent.mk "2024-01-10" (some 14)).hour = some (normalisedHourSpec n m.meridiem) :=
  ⟨by decide,
   (C18_result_iff_keyword_and_digit 1704899000000 msPerDay "2 people today at 5pm").2.1
     ⟨"2024-01-10", some 14⟩ (by decide)⟩

/-! ## C17: the rows of the calendar -/

/-- C17 (evaluation of the code): the calendar has rows for the hours 12 to 21
and none for 22, while the booking form offers 12 to 22 and the bot accepts 22;
a booking at 22 is shown in no cell. -/
theorem C17_calendar_has_no_row_for_22 :
    (∀ (data : List Booking) (dateKey : Nat → String),
      (renderCalendar data dateKey).map CalendarRow.hour
        = [12, 13, 14, 15, 16, 17, 18, 19, 20, 21]) ∧
    populateTimeSlots.map TimeOption.value
      = ["12", "13", "14", "15", "16", "17", "18", "19", "20", "21", "22"] ∧
    ¬ (jsLt (some 22) (some 12) = true ∨ jsGt (some 22) (some 22) = true) ∧
    isTaken [sampleBooking "a1" (JsVal.str "22")] "2024-01-10" (some 22) = true ∧
    ∀ row ∈ renderCalendar [sampleBooking "a1" (JsVal.str "22")] (fun _ => "2024-01-10"),
      ∀ cell ∈ row.cells, cell.booking = none := by
  refine ⟨fun data dateKey => rfl, by decide, by decide, by decide, by decide⟩

/-! ## Lemmas on `saveBooking` -/

theorem findIdx_modify {α : Type} (p : α → Bool) (f : α → α) :
    ∀ (data : List α) (i : Nat), data.findIdx? p = some i →
      ∃ pre x post, data = pre ++ x :: post ∧ p x = true ∧ (∀ b ∈ pre, p b = false) ∧
        List.modify f i data = pre ++ f x :: post := by
  intro data
  induction data with
  | nil => intro i h; simp at h
  | cons b bs ih =>
    intro i h
    by_cases hb : p b = true
    · simp only [List.findIdx?_cons, hb, if_true, Option.some.injEq] at h
      subst h
      exact ⟨[], b, bs, rfl, hb, by simp, rfl⟩
    · simp only [List.findIdx?_cons, hb, Bool.false_eq_true, if_false, Nat.zero_add,
        List.findIdx?_succ, Option.map_eq_some'] at h
      obtain ⟨j, hj, rfl⟩ := h
      obtain ⟨pre, x, post, hd, hx, hpre, hm⟩ := ih j hj
      refine ⟨b :: pre, x, post, by rw [hd]; rfl, hx, ?_, ?_⟩
      · intro c hc
        rcases List.mem_cons.mp hc with rfl | hc
        · simpa using hb
        · exact hpre c hc
      · simp only [List.modify_succ_cons, hm, List.cons_append]

theorem save_conflict (freshId : String) (form : BookingForm) (data : List Booking)
    (h : ∃ b ∈ data, conflictsWith form b = true) :
    saveBooking freshId form data = { data := data, alerted := true, persisted := false } := by
  unfold saveBooking
  cases hf : data.find? (conflictsWith form) with
  | some _ => rfl
  | none =>
    obtain ⟨b, hb, hc⟩ := h
    rw [List.find?_eq_none] at hf
    exact absurd hc (hf b hb)

theorem save_create (freshId : String) (form : BookingForm) (data : List Booking)
    (h : ∀ b ∈ data, conflictsWith form b = false) (hid : form.id = "") :
    saveBooking freshId form data =
      { data := data ++ [manualBooking freshId form], alerted := false, persisted := true } := by
  have hf : data.find? (conflictsWith form) = none := by
    rw [List.find?_eq_none]
    intro b hb
    simp [h b hb]
  unfold saveBooking
  simp only [hf, hid, ne_eq, not_true_eq_false, if_false, manualBooking]

theorem save_update (freshId : String) (form : BookingForm) (data : List Booking)
    (h : ∀ b ∈ data, conflictsWith form b = false) (hid : form.id ≠ "") :
    (∃ pre x post, data = pre ++ x :: post ∧ x.id = form.id ∧
      (∀ b ∈ pre, b.id ≠ form.id) ∧
      saveBooking freshId form data =
        { data := pre ++ patchBooking form x :: post, alerted := false, persisted := true }) ∨
    ((∀ b ∈ data, b.id ≠ form.id) ∧
      saveBooking freshId form data =
        { data := data, alerted := false, persisted := true }) := by
  have hf : data.find? (conflictsWith form) = none := by
    rw [List.find?_eq_none]
    intro b hb
    simp [h b hb]
  unfold saveBooking
  simp only [hf, hid, ne_eq, not_false_eq_true, if_true]
  cases hi : data.findIdx? (fun b => decide (b.id = form.id)) with
  | none =>
    right
    refine ⟨?_, rfl⟩
    rw [List.findIdx?_eq_none_iff] at hi
    intro b hb
    simpa using hi b hb
  | some i =>
    left
    obtain ⟨pre, x, post, hd, hx, hpre, hm⟩ :=
      findIdx_modify (fun b => decide (b.id = form.id)) (patchBooking form) data i hi
    refine ⟨pre, x, post, hd, by simpa using hx, ?_, ?_⟩
    · intro b hb
      simpa using hpre b hb
    · simp only [SaveResult.mk.injEq, and_self, and_true]
      exact hm

theorem slot_value_canonical :
    ∀ t ∈ populateTimeSlots.map TimeOption.value, ∀ h : Int,
      parseInt (JsVal.str t) = some h → t = toString h ∧ stringToNumber t = some h := by
  intro t ht h hp
  have hl : populateTimeSlots.map TimeOption.value
      = ["12", "13", "14", "15", "16", "17", "18", "19", "20", "21", "22"] := by decide
  rw [hl] at ht
  simp only [List.mem_cons, List.mem_singleton, List.not_mem_nil, or_false] at ht
  rcases ht with rfl | rfl | rfl | rfl | rfl | rfl | rfl | rfl | rfl | rfl | rfl <;>
    · cases hp
      exact ⟨by decide, by decide⟩

/-- A booking that occupies the slot the form asks for, under the conditions of
the invariant, is a conflict in the sense of the check. -/
theorem occupies_conflicts (form : BookingForm) (b : Booking) (h : Int)
    (hslot : form.time = "" ∨ form.time ∈ populateTimeSlots.map TimeOption.value)
    (hcan : canonicalTime b.time = true) (hid : b.id ≠ form.id)
    (hnew : parseInt (JsVal.str form.time) = some h)
    (hocc : occupies form.date (some h) b = true) :
    conflictsWith form b = true := by
  have hne : form.time ∈ populateTimeSlots.map TimeOption.value := by
    rcases hslot with he | hm
    · rw [he, (by decide : parseInt (JsVal.str "") = none)] at hnew
      cases hnew
    · exact hm
  obtain ⟨ht, hnum⟩ := slot_value_canonical _ hne h hnew
  simp only [occupies, Bool.and_eq_true, decide_eq_true_eq] at hocc
  obtain ⟨hd, hpi⟩ := hocc
  have hpb : parseInt b.time = some h := by
    cases hq : parseInt b.time with
    | none => simp [hq, jsStrictEq] at hpi
    | some x =>
      simp only [hq, jsStrictEq, decide_eq_true_eq] at hpi
      rw [hpi]
  simp only [canonicalTime, hpb, Bool.or_eq_true, decide_eq_true_eq] at hcan
  have hloose : looseEqString b.time form.time = true := by
    rcases hcan with hc | hc
    · rw [hc]
      simp [looseEqString, hnum, jsStrictEq]
    · rw [hc]
      simp [looseEqString, ht]
  simp [conflictsWith, hd, hloose, hid]

theorem length_filter_middle {α : Type} (p : α → Bool) (pre post : List α) (x : α) :
    ((pre ++ x :: post).filter p).length =
      (pre.filter p).length + (if p x = true then 1 else 0) + (post.filter p).length := by
  rw [List.filter_append, List.length_append, List.filter_cons]
  split
  · simp only [List.length_cons]
    omega
  · simp

/-- Putting `x'` in the place of `x` keeps the invariant when nothing else
occupies a slot that `x'` occupies. -/
theorem noDouble_replace (pre post : List Booking) (x x' : Booking)
    (hinv : NoDoubleBooking (pre ++ x :: post))
    (hfree : ∀ d h, occupies d (some h) x' = true →
      ∀ b, b ∈ pre ∨ b ∈ post → occupies d (some h) b = false) :
    NoDoubleBooking (pre ++ x' :: post) := by
  intro d h
  rw [length_filter_middle]
  by_cases hx : occupies d (some h) x' = true
  · have h1 : pre.filter (occupies d (some h)) = [] := by
      rw [List.filter_eq_nil_iff]
      intro b hb
      simp [hfree d h hx b (Or.inl hb)]
    have h2 : post.filter (occupies d (some h)) = [] := by
      rw [List.filter_eq_nil_iff]
      intro b hb
      simp [hfree d h hx b (Or.inr hb)]
    simp [h1, h2, hx]
  · have := hinv d h
    rw [length_filter_middle] at this
    simp only [hx, Bool.false_eq_true, if_false, Nat.add_zero]
    split at this <;> omega

theorem noDouble_append (data : List Booking) (x' : Booking)
    (hinv : NoDoubleBooking data)
    (hfree : ∀ d h, occupies d (some h) x' = true →
      ∀ b, b ∈ data → occupies d (some h) b = false) :
    NoDoubleBooking (data ++ [x']) := by
  intro d h
  rw [List.filter_append, List.length_append]
  by_cases hx : occupies d (some h) x' = true
  · have h1 : data.filter (occupies d (some h)) = [] := by
      rw [List.filter_eq_nil_iff]
      intro b hb
      simp [hfree d h hx b hb]
    simp [h1, List.filter_cons, hx]
  · have := hinv d h
    simp only [List.filter_cons, hx, Bool.false_eq_true, if_false, List.filter_nil,
      List.length_nil, Nat.add_zero]
    exact this

theorem noDouble_of_pairwise (l : List Booking)
    (h : l.Pairwise (fun a b =>
      ¬ (a.date = b.date ∧ jsStrictEq (parseInt a.time) (parseInt b.time) = true))) :
    NoDoubleBooking l := by
  induction l with
  | nil => intro d hr; simp
  | cons a t ih =>
    rw [List.pairwise_cons] at h
    intro d hr
    rw [List.filter_cons]
    split
    · rename_i ha
      have ht : t.filter (occupies d (some hr)) = [] := by
        rw [List.filter_eq_nil_iff]
        intro b hb hocc
        apply h.1 b hb
        simp only [occupies, Bool.and_eq_true, decide_eq_true_eq] at ha hocc
        refine ⟨ha.1.trans hocc.1.symm, ?_⟩
        cases hpa : parseInt a.time with
        | none => simp [hpa, jsStrictEq] at ha
        | some x =>
          cases hpb : parseInt b.time with
          | none => simp [hpb, jsStrictEq] at hocc
          | some y =>
            have e1 := ha.2
            have e2 := hocc.2
            simp only [hpa, hpb, jsStrictEq, decide_eq_true_eq] at e1 e2 ⊢
            omega
      simp [ht]
    · exact ih h.2 d hr

/-! ## C20: the double-booking check of the admin form -/

/-- C20 (as amended): `saveBooking` leaves the list as it is (and alerts) when
some booking with a different id has the same date and a loosely equal time;
otherwise it appends one booking when the form's id is empty, and when the id
is not empty it replaces the first booking with that id by its update, or
changes nothing if no booking has that id. If the ids of the list are distinct
and not empty, every stored time is in the form the application writes (the
number or the decimal string of its hour), and the form's time is empty or one
of the values of the time select, a list with at most one booking per date and
integer hour stays so. -/
theorem C20_save_booking (freshId : String) (form : BookingForm) (data : List Booking) :
    ((∃ b ∈ data, b.date = form.date ∧ looseEqString b.time form.time = true ∧
        b.id ≠ form.id) →
      saveBooking freshId form data =
        { data := data, alerted := true, persisted := false }) ∧
    ((¬ ∃ b ∈ data, b.date = form.date ∧ looseEqString b.time form.time = true ∧
        b.id ≠ form.id) → form.id = "" →
      saveBooking freshId form data =
        { data := data ++ [manualBooking freshId form], alerted := false,
          persisted := true }) ∧
    ((¬ ∃ b ∈ data, b.date = form.date ∧ looseEqString b.time form.time = true ∧
        b.id ≠ form.id) → form.id ≠ "" →
      (∃ pre x post, data = pre ++ x :: post ∧ x.id = form.id ∧
        (∀ b ∈ pre, b.id ≠ form.id) ∧
        saveBooking freshId form data =
          { data := pre ++ patchBooking form x :: post, alerted := false,
            persisted := true }) ∨
      ((∀ b ∈ data, b.id ≠ form.id) ∧
        saveBooking freshId form data =
          { data := data, alerted := false, persisted := true })) ∧
    (NoDoubleBooking data → (data.map Booking.id).Nodup → (∀ b ∈ data, b.id ≠ "") →
      (∀ b ∈ data, canonicalTime b.time = true) →
      (form.time = "" ∨ form.time ∈ populateTimeSlots.map TimeOption.value) →
      NoDoubleBooking (saveBooking freshId form data).data) := by
  have hconf : ∀ b, conflictsWith form b = true ↔
      (b.date = form.date ∧ looseEqString b.time form.time = true ∧ b.id ≠ form.id) := by
    intro b
    simp [conflictsWith, and_assoc]
  have hnone : (¬ ∃ b ∈ data, b.date = form.date ∧ looseEqString b.time form.time = true ∧
      b.id ≠ form.id) → ∀ b ∈ data, conflictsWith form b = false := by
    intro hn b hb
    cases hc : conflictsWith form b with
    | false => rfl
    | true => exact absurd ⟨b, hb, (hconf b).mp hc⟩ hn
  refine ⟨?_, ?_, ?_, ?_⟩
  · rintro ⟨b, hb, hc⟩
    exact save_conflict freshId form data ⟨b, hb, (hconf b).mpr hc⟩
  · intro hn hid
    exact save_create freshId form data (hnone hn) hid
  · intro hn hid
    exact save_update freshId form data (hnone hn) hid
  · intro hinv hnodup hids hcan hslot
    by_cases hex : ∃ b ∈ data, b.date = form.date ∧ looseEqString b.time form.time = true ∧
        b.id ≠ form.id
    · obtain ⟨b, hb, hc⟩ := hex
      rw [save_conflict freshId form data ⟨b, hb, (hconf b).mpr hc⟩]
      exact hinv
    · have hfree := hnone hex
      have hpatch : ∀ (x' : Booking), x'.date = form.date → x'.time = JsVal.str form.time →
          ∀ d h, occupies d (some h) x' = true → ∀ b ∈ data, b.id ≠ form.id →
            occupies d (some h) b = false := by
        intro x' hd' ht' d h hocc b hb hbid
        simp only [occupies, hd', ht', Bool.and_eq_true, decide_eq_true_eq] at hocc
        obtain ⟨hdd, hpi⟩ := hocc
        subst hdd
        have hnew : parseInt (JsVal.str form.time) = some h := by
          cases hq : parseInt (JsVal.str form.time) with
          | none => simp [hq, jsStrictEq] at hpi
          | some x =>
            simp only [hq, jsStrictEq, decide_eq_true_eq] at hpi
            rw [hpi]
        cases hob : occupies form.date (some h) b with
        | false => rfl
        | true =>
          have := occupies_conflicts form b h hslot (hcan b hb) hbid hnew hob
          rw [hfree b hb] at this
          cases this
      by_cases hid : form.id = ""
      · rw [save_create freshId form data hfree hid]
        apply noDouble_append data _ hinv
        intro d h hocc b hb
        exact hpatch (manualBooking freshId form) rfl rfl d h hocc b hb
          (by rw [hid]; exact hids b hb)
      · rcases save_update freshId form data hfree hid with
          ⟨pre, x, post, hd, hx, _, hs⟩ | ⟨_, hs⟩
        · rw [hs]
          rw [hd] at hinv
          apply noDouble_replace pre post x _ hinv
          intro d h hocc b hb
          have hbmem : b ∈ data := by
            rw [hd]
            rcases hb with hb | hb
            · exact List.mem_append_left _ hb
            · exact List.mem_append_right _ (List.mem_cons_of_mem _ hb)
          have hbid : b.id ≠ form.id := by
            rw [hd, List.map_append, List.map_cons, List.nodup_middle, List.nodup_cons] at hnodup
            intro he
            apply hnodup.1
            rw [← List.map_append, hx, ← he]
            apply List.mem_map_of_mem
            rcases hb with hb | hb
            · exact List.mem_append_left _ hb
            · exact List.mem_append_right _ hb
          exact hpatch (patchBooking form x) rfl rfl d h hocc b hbmem hbid
        · rw [hs]
          exact hinv

/-- Witness of C20: the booking "a1" at 3 PM is moved to 5 PM while "a2" holds
4 PM. -/
theorem C20_save_booking_witness :
    NoDoubleBooking [sampleBooking "a1" (JsVal.num 15), sampleBooking "a2" (JsVal.str "16")] ∧
    (saveBooking "n1" ⟨"a1", "Ali", "Beard", "2024-01-10", "17"⟩
      [sampleBooking "a1" (JsVal.num 15), sampleBooking "a2" (JsVal.str "16")]).data =
      [patchBooking ⟨"a1", "Ali", "Beard", "2024-01-10", "17"⟩
          (sampleBooking "a1" (JsVal.num 15)),
        sampleBooking "a2" (JsVal.str "16")] ∧
    NoDoubleBooking (saveBooking "n1" ⟨"a1", "Ali", "Beard", "2024-01-10", "17"⟩
      [sampleBooking "a1" (JsVal.num 15), sampleBooking "a2" (JsVal.str "16")]).data :=
  ⟨noDouble_of_pairwise _ (by decide), by decide,
   (C20_save_booking "n1" ⟨"a1", "Ali", "Beard", "2024-01-10", "17"⟩
     [sampleBooking "a1" (JsVal.num 15), sampleBooking "a2" (JsVal.str "16")]).2.2.2
     (noDouble_of_pairwise _ (by decide)) (by decide) (by decide) (by decide)
     (Or.inr (by decide))⟩

/-- Counterexample to C20 as stated. First list: one booking whose stored time
is "15:00", which the bot and the calendar read as hour 15; the form asks for
the same date at "15", the check compares `"15:00" == "15"`, finds no conflict,
and a second booking for hour 15 is created. Second list: two bookings that
share the id "a1", at "16" and at "15"; moving "a1" to "15" passes the check,
which skips every booking with the id of the form, and leaves two bookings at
"15". Both lists had at most one booking per date and hour. -/
theorem C20_double_booking_after_save :
    NoDoubleBooking [sampleBooking "a1" (JsVal.str "15:00")] ∧
    (saveBooking "n1" ⟨"", "Ali", "Beard", "2024-01-10", "15"⟩
      [sampleBooking "a1" (JsVal.str "15:00")]).data =
      [sampleBooking "a1" (JsVal.str "15:00"),
        manualBooking "n1" ⟨"", "Ali", "Beard", "2024-01-10", "15"⟩] ∧
    ¬ NoDoubleBooking (saveBooking "n1" ⟨"", "Ali", "Beard", "2024-01-10", "15"⟩
      [sampleBooking "a1" (JsVal.str "15:00")]).data ∧
    NoDoubleBooking [sampleBooking "a1" (JsVal.str "16"), sampleBooking "a1" (JsVal.str "15")] ∧
    (saveBooking "n1" ⟨"a1", "Ali", "Beard", "2024-01-10", "15"⟩
      [sampleBooking "a1" (JsVal.str "16"), sampleBooking "a1" (JsVal.str "15")]).data =
      [patchBooking ⟨"a1", "Ali", "Beard", "2024-01-10", "15"⟩
          (sampleBooking "a1" (JsVal.str "16")),
        sampleBooking "a1" (JsVal.str "15")] ∧
    ¬ NoDoubleBooking (saveBooking "n1" ⟨"a1", "Ali", "Beard", "2024-01-10", "15"⟩
      [sampleBooking "a1" (JsVal.str "16"), sampleBooking "a1" (JsVal.str "15")]).data := by
  refine ⟨noDouble_of_pairwise _ (by decide), by decide, ?_,
    noDouble_of_pairwise _ (by decide), by decide, ?_⟩
  · intro hinv
    exact absurd (hinv "2024-01-10" 15) (by decide)
  · intro hinv
    exact absurd (hinv "2024-01-10" 15) (by decide)

/-! ## Lemmas on dates -/

theorem digitChar_ne_T (n : Nat) (h : n < 10) : Nat.digitChar n ≠ 'T' := by
  interval_cases n <;> decide

theorem toDigitsCore_no_T (fuel : Nat) : ∀ (n : Nat) (ds : List Char),
    (∀ c ∈ ds, c ≠ 'T') → ∀ c ∈ Nat.toDigitsCore 10 fuel n ds, c ≠ 'T' := by
  induction fuel with
  | zero => intro n ds h; simpa [Nat.toDigitsCore] using h
  | succ f ih =>
    intro n ds h
    have hd : ∀ c ∈ Nat.digitChar (n % 10) :: ds, c ≠ 'T' := by
      intro c hc
      rcases List.mem_cons.mp hc with rfl | hc
      · exact digitChar_ne_T _ (Nat.mod_lt _ (by decide))
      · exact h c hc
    simp only [Nat.toDigitsCore]
    split
    · exact hd
    · exact ih _ _ hd

theorem toString_nat_no_T (n : Nat) : ∀ c ∈ (toString n).toList, c ≠ 'T' := by
  have : (toString n).toList = Nat.toDigits 10 n := rfl
  rw [this]
  exact toDigitsCore_no_T _ _ _ (by simp)

theorem padLeft_no_T (w n : Nat) : ∀ c ∈ (padLeft w n).toList, c ≠ 'T' := by
  intro c hc
  simp only [padLeft, String.toList, String.data_append, List.mem_append,
    List.mem_replicate] at hc
  rcases hc with ⟨_, rfl⟩ | hc
  · decide
  · exact toString_nat_no_T n c hc

theorem isoYear_no_T (y : Nat) : ∀ c ∈ (isoYear y).toList, c ≠ 'T' := by
  intro c hc
  unfold isoYear at hc
  split at hc
  · exact padLeft_no_T _ _ c hc
  · simp only [String.toList, String.data_append, List.mem_append] at hc
    rcases hc with hc | hc
    · simp at hc
      subst hc
      decide
    · exact padLeft_no_T _ _ c hc

theorem append_no_T (a b : String) (ha : ∀ c ∈ a.toList, c ≠ 'T')
    (hb : ∀ c ∈ b.toList, c ≠ 'T') : ∀ c ∈ (a ++ b).toList, c ≠ 'T' := by
  intro c hc
  simp only [String.toList, String.data_append, List.mem_append] at hc
  rcases hc with hc | hc
  · exact ha c hc
  · exact hb c hc

theorem dash_no_T : ∀ c ∈ "-".toList, c ≠ 'T' := by decide

theorem isoDate_no_T (days : Nat) : ∀ c ∈ (isoDate days).toList, c ≠ 'T' := by
  unfold isoDate
  exact append_no_T _ _ (append_no_T _ _ (append_no_T _ _ (append_no_T _ _
    (isoYear_no_T _) dash_no_T) (padLeft_no_T _ _)) dash_no_T) (padLeft_no_T _ _)

theorem takeWhile_before_T (l rest : List Char) (h : ∀ c ∈ l, c ≠ 'T') :
    List.takeWhile (fun c => c != 'T') (l ++ 'T' :: rest) = l := by
  induction l with
  | nil => simp [List.takeWhile_cons]
  | cons a l ih =>
    have ha : a ≠ 'T' := h a (List.mem_cons_self _ _)
    simp [List.takeWhile_cons, ha, ih (fun c hc => h c (List.mem_cons_of_mem _ hc))]

theorem toISOString_split (t : Nat) :
    toISOString t = isoDate (t / msPerDay) ++ ("T" ++ isoTime t) := by
  unfold toISOString isoDate isoTime
  simp only [String.append_assoc]

theorem mk_toList (s : String) : String.mk s.toList = s := by
  cases s
  rfl

theorem toList_append (a b : String) : (a ++ b).toList = a.toList ++ b.toList := by
  cases a
  cases b
  rfl

theorem toISOString_toList (t : Nat) : (toISOString t).toList =
    (isoDate (t / msPerDay)).toList ++ 'T' :: (isoTime t).toList := by
  rw [toISOString_split, toList_append, toList_append]
  rfl

/-- The date part of `toISOString` is the ISO date of the day the time value
falls on. -/
theorem beforeT_toISOString (t : Nat) : beforeT (toISOString t) = isoDate (t / msPerDay) := by
  have h := takeWhile_before_T (isoDate (t / msPerDay)).toList (isoTime t).toList
    (isoDate_no_T _)
  rw [← toISOString_toList] at h
  unfold beforeT
  rw [h]
  exact mk_toList _

theorem day_after (now : Nat) : (now + msPerDay) / msPerDay = now / msPerDay + 1 := by
  unfold msPerDay
  omega

/-! ## C11: "tomorrow at 5pm" -/

theorem isPrefixOf_append (p post : List Char) : p.isPrefixOf (p ++ post) = true := by
  induction p with
  | nil => simp [List.isPrefixOf]
  | cons a p ih => simp [List.isPrefixOf, ih]

theorem includesChars_mid (pre p post : List Char) :
    includesChars (pre ++ (p ++ post)) p = true := by
  induction pre with
  | nil =>
    cases hq : p ++ post with
    | nil =>
      have hp : p = [] := (List.append_eq_nil.mp hq).1
      simp [includesChars, hp]
    | cons c cs =>
      have h := isPrefixOf_append p post
      rw [hq] at h
      simp [includesChars, h]
  | cons a pre ih =>
    rw [List.cons_append, includesChars, ih, Bool.or_true]

theorem matchChars_skip (pre s : List Char) (h : ∀ c ∈ pre, isDigit c = false) :
    matchChars (pre ++ s) = matchChars s := by
  induction pre with
  | nil => rfl
  | cons a pre ih =>
    have ha : isDigit a = false := h a (List.mem_cons_self _ _)
    have hm : matchAt (a :: (pre ++ s)) = none := by simp [matchAt, ha]
    rw [List.cons_append, matchChars, hm]
    exact ih (fun c hc => h c (List.mem_cons_of_mem _ hc))

/-- The hour and the instant of "tomorrow at 5pm": for every text whose
lower-cased form has "tomorrow at 5pm" with no digit before it, the parser
returns hour 17 and the date string of the instant `now + localDayMs`. -/
theorem parse_tomorrow_at_5pm (now localDayMs : Nat) (text : String) (pre post : List Char)
    (h : (toLowerCase text).toList = pre ++ ("tomorrow at 5pm".toList ++ post))
    (hpre : ∀ c ∈ pre, isDigit c = false) :
    parseBookingRequest now localDayMs text =
      some ⟨beforeT (toISOString (now + localDayMs)), some 17⟩ := by
  have hk : includes (toLowerCase text) "tomorrow" = true := by
    unfold includes
    rw [h]
    have : "tomorrow at 5pm".toList ++ post = "tomorrow".toList ++ (" at 5pm".toList ++ post) := by
      rfl
    rw [this]
    exact includesChars_mid _ _ _
  have hm : timeMatch (toLowerCase text) = some ⟨"5", none, some "pm"⟩ := by
    unfold timeMatch
    rw [h, matchChars_skip _ _ hpre]
    rfl
  simp only [parseBookingRequest, hk, if_true, hm]
  rfl

/-- Without a change of the local offset, "tomorrow" is the day after "today":
with `localDayMs = msPerDay` the parser returns, for a text with "tomorrow at
5pm", hour 17 and the ISO date of the day after the day of the clock reading,
which is the day a text with "today" gets. -/
theorem parse_tomorrow_without_offset_change (now : Nat) (text : String)
    (pre post : List Char)
    (h : (toLowerCase text).toList = pre ++ ("tomorrow at 5pm".toList ++ post))
    (hpre : ∀ c ∈ pre, isDigit c = false) :
    parseBookingRequest now msPerDay text = some ⟨isoDate (now / msPerDay + 1), some 17⟩ ∧
    parseBookingRequest now msPerDay "today at 5pm" =
      some ⟨isoDate (now / msPerDay), some 17⟩ := by
  constructor
  · rw [parse_tomorrow_at_5pm now msPerDay text pre post h hpre, beforeT_toISOString,
      day_after]
  · have : parseBookingRequest now msPerDay "today at 5pm" =
        some ⟨beforeT (toISOString now), some 17⟩ := rfl
    rw [this, beforeT_toISOString]

/-- C11 (evaluation of the code): on a server whose local offset changes within
the next local day, "tomorrow" is not the day after "today". At
2024-03-31T00:30:00Z in a zone that moves its clocks forward that night (the
local day has 23 hours) "tomorrow at 5pm" gets the date of "today at 5pm"; at
2024-10-26T23:30:00Z in a zone that moves them back (25 hours) it gets the date
two days after. The hour is 17 in every case. -/
theorem C11_tomorrow_across_offset_change :
    parseBookingRequest 1711845000000 82800000 "tomorrow at 5pm"
      = some ⟨"2024-03-31", some 17⟩ ∧
    parseBookingRequest 1711845000000 82800000 "today at 5pm"
      = some ⟨"2024-03-31", some 17⟩ ∧
    parseBookingRequest 1729985400000 90000000 "tomorrow at 5pm"
      = some ⟨"2024-10-28", some 17⟩ ∧
    parseBookingRequest 1729985400000 90000000 "today at 5pm"
      = some ⟨"2024-10-26", some 17⟩ ∧
    parseBookingRequest 1711845000000 msPerDay "tomorrow at 5pm"
      = some ⟨"2024-04-01", some 17⟩ := by
  refine ⟨by decide, by decide, by decide, by decide, by decide⟩

/-! ## C21: the log keeps 50 entries -/

theorem pushLog_eq (id : String) (time : Nat) (message : Utf16) (type : String)
    (logs : List LogEntry) :
    pushLog id time message type logs =
      { id := id, timestamp := toISOString time, message := message, type := type } ::
        logs.take (min logs.length 49) := by
  unfold pushLog
  simp only [List.length_cons]
  split
  · rename_i h
    have hmin : min logs.length 49 = 49 := by omega
    rw [hmin]
    rfl
  · rename_i h
    have hmin : min logs.length 49 = logs.length := by omega
    rw [hmin, List.take_length]

/-- C21: for every stored log list and every message, the list `logBot` writes
has the new entry at index 0, followed by the first `min(|L|, 49)` entries of
the stored list in their order; its length is `min(|L| + 1, 50)`, never more
than 50. -/
theorem C21_logBot_keeps_50 (o : Oracle) (message : Utf16) (type : String) (w : World) :
    (logBot o message type w).botLogs =
      { id := o.logId w.logCalls, timestamp := toISOString (o.logTime w.logCalls),
        message := message, type := type } ::
        w.botLogs.take (min w.botLogs.length 49) ∧
    (logBot o message type w).botLogs.length = min (w.botLogs.length + 1) 50 ∧
    (logBot o message type w).botLogs.length ≤ 50 ∧
    newEvents w (logBot o message type w) =
      [Event.read DataFile.botLogs, Event.write DataFile.botLogs] := by
  have h : (logBot o message type w).botLogs =
      { id := o.logId w.logCalls, timestamp := toISOString (o.logTime w.logCalls),
        message := message, type := type } ::
        w.botLogs.take (min w.botLogs.length 49) := pushLog_eq _ _ _ _ _
  refine ⟨h, ?_, ?_, newEvents_of_trace _ _ _ rfl⟩
  · rw [h, List.length_cons, List.length_take]
    omega
  · rw [h, List.length_cons, List.length_take]
    omega

/-- The cut at work: on a stored list of 50 entries `logBot` drops the oldest,
on one of 3 entries it drops none. -/
theorem logBot_examples :
    ((logBot sampleOracle (utf16 "Received DM") "incoming"
      { worldWith [] with botLogs :=
          (List.range 50).map fun k => ⟨toString k, "t", utf16 "m", "info"⟩ }).botLogs.map
        LogEntry.id) = "log0" :: (List.range 49).map (fun k => toString k) ∧
    ((logBot sampleOracle (utf16 "Received DM") "incoming"
      { worldWith [] with botLogs :=
          (List.range 3).map fun k => ⟨toString k, "t", utf16 "m", "info"⟩ }).botLogs.map
        LogEntry.id) = ["log0", "0", "1", "2"] := by
  refine ⟨by decide, by decide⟩

/-! ## Lemmas on the runs on the file as parsed -/

theorem decodeUtf16_charUnits (c : Char) (us : Utf16) :
    decodeUtf16 (charUnits c ++ us) = c :: decodeUtf16 us := by
  have hv := c.valid
  have hc : Char.ofNat c.toNat = c := Char.ofNat_toNat c
  simp only [UInt32.isValidChar, Nat.isValidChar] at hv
  change c.toNat < 55296 ∨ 57343 < c.toNat ∧ c.toNat < 1114112 at hv
  unfold charUnits
  split
  · cases us with
    | nil => simp [decodeUtf16, hc]
    | cons lo rest =>
      simp only [List.singleton_append, decodeUtf16]
      rw [if_neg (by omega), hc]
  · simp only [List.cons_append, List.nil_append, decodeUtf16]
    rw [if_pos (by omega)]
    have e : 65536 + (55296 + (c.toNat - 65536) / 1024 - 55296) * 1024 +
        (56320 + (c.toNat - 65536) % 1024 - 56320) = c.toNat := by omega
    rw [e, hc]
    rfl

theorem decodeUtf16_flatMap (cs : List Char) :
    decodeUtf16 (cs.flatMap charUnits) = cs := by
  induction cs with
  | nil => rfl
  | cons c cs ih => rw [List.flatMap_cons, decodeUtf16_charUnits, ih]

/-- Reading back the code units of a string gives its characters. -/
theorem decodeUtf16_utf16 (s : String) : decodeUtf16 (utf16 s) = s.toList :=
  decodeUtf16_flatMap s.toList

theorem utf16_injective (a b : String) (h : utf16 a = utf16 b) : a = b := by
  have := congrArg decodeUtf16 h
  rw [decodeUtf16_utf16, decodeUtf16_utf16] at this
  exact String.ext this

theorem get_date_ofBooking (b : Booking) :
    Json.get "date" (Json.ofBooking b) = Except.ok (some (Json.str (utf16 b.date))) := by
  simp [Json.get, Json.ofBooking, List.lookup]

theorem parseIntTime_ofBooking (b : Booking) :
    parseIntTime (Json.ofBooking b) = Except.ok (parseInt b.time) := by
  obtain ⟨id, cu, sv, d, t, so, ig⟩ := b
  cases t with
  | undefined =>
    cases ig <;>
      simp [parseIntTime, Json.get, Json.ofBooking, List.lookup, parseIntJson, parseInt,
        jsToString]
  | str s =>
    simp [parseIntTime, Json.get, Json.ofBooking, List.lookup, parseIntJson, parseInt,
      jsToString, Json.toStr, decodeUtf16_utf16]
  | num n =>
    simp [parseIntTime, Json.get, Json.ofBooking, List.lookup, parseIntJson, parseInt,
      jsToString, Json.toStr, decodeUtf16_utf16]

theorem occupiesRaw_ofBooking (d : String) (h : JsNum) (b : Booking) :
    occupiesRaw d h (Json.ofBooking b) = Except.ok (occupies d h b) := by
  simp only [occupiesRaw, get_date_ofBooking, parseIntTime_ofBooking, strictEqString,
    occupies]
  by_cases hd : b.date = d
  · simp [hd]
  · have : utf16 b.date ≠ utf16 d := fun e => hd (utf16_injective _ _ e)
    simp [hd, this]

theorem isTakenRaw_map (bs : List Booking) (d : String) (h : JsNum) :
    isTakenRaw (bs.map Json.ofBooking) d h = Except.ok (isTaken bs d h) := by
  induction bs with
  | nil => rfl
  | cons b bs ih =>
    simp only [isTakenRaw, List.map_cons, someRaw, occupiesRaw_ofBooking] at ih ⊢
    cases hb : occupies d h b with
    | true => simp [isTaken, hb]
    | false => simp [isTaken, hb, ih]

theorem suggestionsRaw_map (bs : List Booking) (d : String) (h : JsNum) :
    suggestionsRaw (bs.map Json.ofBooking) d h = Except.ok (suggestions bs d h) := by
  simp only [suggestionsRaw, isTakenRaw_map, suggestions, List.nil_append]

theorem withBookings_self (w : World) (bs : List Booking) (h : w.bookings = bs) :
    withBookings bs w = w := by
  subst h
  rfl

theorem withBookings_bookings (w : World) (bs : List Booking) :
    (withBookings bs w).bookings = bs := rfl

theorem withBookings_withBookings (w : World) (bs cs : List Booking) :
    withBookings cs (withBookings bs w) = withBookings cs w := rfl

/-- On a file that is an array of objects with a string, a number or nothing
for `time`, the run on the file as parsed does not throw and is the run of the
validated model. -/
theorem processRaw_of_bookings (o : Oracle) (event : MessageEvent) (bs : List Booking)
    (w : World) :
    processInstagramMessageRaw o event ⟨Json.arr (bs.map Json.ofBooking), w⟩ =
      { state :=
          { file := Json.arr
              ((processInstagramMessage o event (withBookings bs w)).bookings.map
                Json.ofBooking)
            world := withBookings w.bookings
              (processInstagramMessage o event (withBookings bs w)) }
        thrown := none } := by
  obtain ⟨sid, txt⟩ := event
  have early : ∀ (_ : txt = none ∨ txt = some "" ∨
      (∃ text, txt = some text ∧ parseBookingRequest o.now o.localDayMs text = none) ∨
      (∃ text i, txt = some text ∧ parseBookingRequest o.now o.localDayMs text = some i ∧
        (jsLt i.hour (some 12) = true ∨ jsGt i.hour (some 22) = true))),
      processInstagramMessageRaw o ⟨sid, txt⟩
          ⟨Json.arr (bs.map Json.ofBooking), w⟩ =
        { state :=
            { file := Json.arr (bs.map Json.ofBooking)
              world := processInstagramMessage o ⟨sid, txt⟩ w }
          thrown := none } ∧
      (processInstagramMessage o ⟨sid, txt⟩ w).bookings = w.bookings := by
    rintro (rfl | rfl | ⟨text, rfl, hp⟩ | ⟨text, i, rfl, hp, hh⟩)
    · exact ⟨rfl, rfl⟩
    · exact ⟨rfl, rfl⟩
    · by_cases hne : text = ""
      · subst hne
        exact ⟨rfl, rfl⟩
      · simp only [processInstagramMessageRaw, processInstagramMessage, hne, if_false, hp,
          send_bookings, logBot_bookings, and_self]
    · have hne : text ≠ "" := by
        rintro rfl
        rw [parse_empty] at hp
        cases hp
      simp only [processInstagramMessageRaw, processInstagramMessage, hne, if_false, hp, hh,
        if_true, send_bookings, logBot_bookings, and_self]
  have finish : ∀ (h : txt = none ∨ txt = some "" ∨
      (∃ text, txt = some text ∧ parseBookingRequest o.now o.localDayMs text = none) ∨
      (∃ text i, txt = some text ∧ parseBookingRequest o.now o.localDayMs text = some i ∧
        (jsLt i.hour (some 12) = true ∨ jsGt i.hour (some 22) = true))),
      processInstagramMessageRaw o ⟨sid, txt⟩
          ⟨Json.arr (bs.map Json.ofBooking), w⟩ =
        { state :=
            { file := Json.arr
                ((processInstagramMessage o ⟨sid, txt⟩ (withBookings bs w)).bookings.map
                  Json.ofBooking)
              world := withBookings w.bookings
                (processInstagramMessage o ⟨sid, txt⟩ (withBookings bs w)) }
          thrown := none } := by
    intro h
    obtain ⟨h1, h2⟩ := early h
    rw [process_withBookings_early o sid txt bs w h, withBookings_withBookings,
      withBookings_self _ _ h2, h1]
    rfl
  cases txt with
  | none => exact finish (Or.inl rfl)
  | some text =>
    cases hp : parseBookingRequest o.now o.localDayMs text with
    | none => exact finish (Or.inr (Or.inr (Or.inl ⟨text, rfl, hp⟩)))
    | some i =>
      by_cases hh : jsLt i.hour (some 12) = true ∨ jsGt i.hour (some 22) = true
      · exact finish (Or.inr (Or.inr (Or.inr ⟨text, i, rfl, hp, hh⟩)))
      · have hne : text ≠ "" := by
          rintro rfl
          rw [parse_empty] at hp
          cases hp
        rw [process_withBookings o sid text bs w i hp hh]
        simp only [processInstagramMessageRaw, hne, if_false, hp, hh, isTakenRaw_map,
          suggestionsRaw_map]
        cases ht : isTaken bs i.dateStr i.hour with
        | true =>
          have hX : (sendInstagramMessage o sid
              (takenReply i.hour (suggestions bs i.dateStr i.hour))
              (readBookings (logBot o (utf16 ("Received DM: \"" ++ text ++ "\""))
                "incoming" w)).2).bookings = w.bookings := by
            rw [send_bookings]
            rfl
          simp only [if_true, withBookings_withBookings]
          rw [withBookings_self _ _ hX]
          rfl
        | false =>
          have hX : withBookings w.bookings (sendInstagramMessage o sid
              (confirmedReply i.dateStr i.hour)
              (logBot o (utf16 ("Created booking for " ++ i.dateStr ++ " @ " ++
                  numToString i.hour)) "success"
                (writeBookings []
                  (readBookings (readBookings
                    (logBot o (utf16 ("Received DM: \"" ++ text ++ "\"")) "incoming"
                      w)).2).2))) =
              sendInstagramMessage o sid (confirmedReply i.dateStr i.hour)
                (logBot o (utf16 ("Created booking for " ++ i.dateStr ++ " @ " ++
                    numToString i.hour)) "success"
                  (traced (Event.write DataFile.bookings)
                    (traced (Event.read DataFile.bookings)
                      (traced (Event.read DataFile.bookings)
                        (logBot o (utf16 ("Received DM: \"" ++ text ++ "\"")) "incoming"
                          w))))) := by
            have e1 : writeBookings []
                (readBookings (readBookings
                  (logBot o (utf16 ("Received DM: \"" ++ text ++ "\"")) "incoming" w)).2).2 =
                withBookings []
                  (traced (Event.write DataFile.bookings)
                    (traced (Event.read DataFile.bookings)
                      (traced (Event.read DataFile.bookings)
                        (logBot o (utf16 ("Received DM: \"" ++ text ++ "\"")) "incoming"
                          w)))) := rfl
            rw [e1, logBot_withBookings, send_withBookings, withBookings_withBookings]
            apply withBookings_self
            rw [send_bookings]
            rfl
          simp only [Bool.false_eq_true, if_false, withBookings_withBookings, hX,
            withBookings_bookings, List.map_append, List.map_cons, List.map_nil]


/-- The expression `parseInt(b.time)` and the callback of the check on some
elements: a number as element has no `time`; an array converts by `join`; `null`
and the empty object convert to their names; an object with an own `toString`,
alone or inside an array, does not convert; on `null` the property read throws;
and the callback reads `time` only on a record of the requested date. -/
theorem parseIntTime_examples :
    parseIntTime (Json.num 7) = Except.ok none ∧
    parseIntTime (Json.obj [("time", Json.str (utf16 " 15:00"))]) = Except.ok (some 15) ∧
    parseIntTime (Json.obj [("time", Json.arr [Json.num 15, Json.num 30])])
      = Except.ok (some 15) ∧
    parseIntTime (Json.obj [("time", Json.null)]) = Except.ok none ∧
    parseIntTime (Json.obj [("time", Json.obj [])]) = Except.ok none ∧
    parseIntTime (Json.obj [("time", Json.obj [("toString", Json.str (utf16 "15"))])])
      = Except.error JsError.typeError ∧
    parseIntTime (Json.obj [("time", Json.arr [Json.obj [("toString", Json.null)]])])
      = Except.error JsError.typeError ∧
    parseIntTime Json.null = Except.error JsError.typeError ∧
    occupiesRaw "2024-01-10" (some 15) sampleUnconvertible
      = Except.error JsError.typeError ∧
    occupiesRaw "2024-01-11" (some 15) sampleUnconvertible = Except.ok false ∧
    occupiesRaw "2024-01-10" (some 15) (Json.str (utf16 "2024-01-10")) = Except.ok false :=
  ⟨rfl, rfl, rfl, rfl, rfl, rfl, rfl, rfl, rfl, rfl, rfl⟩

theorem someRaw_skip (p : Json → Except JsError Bool) (pre post : List Json)
    (x : Json) (hx : p x = Except.ok false) :
    someRaw p (pre ++ x :: post) = someRaw p (pre ++ post) := by
  induction pre with
  | nil => simp [someRaw, hx]
  | cons a pre ih =>
    rw [List.cons_append, List.cons_append, someRaw, someRaw, ih]

theorem jsStrictEq_nan (h : JsNum) : jsStrictEq none h = false := by
  cases h <;> rfl

theorem get_date_of_time (r : Json) (n : JsNum) (hr : parseIntTime r = Except.ok n) :
    ∃ date, Json.get "date" r = Except.ok date := by
  cases r with
  | null => simp [parseIntTime, Json.get] at hr
  | bool b => exact ⟨_, rfl⟩
  | num k => exact ⟨_, rfl⟩
  | str u => exact ⟨_, rfl⟩
  | arr items => exact ⟨_, rfl⟩
  | obj fields => exact ⟨_, rfl⟩

theorem occupiesRaw_of_time (r : Json) (n : JsNum) (hr : parseIntTime r = Except.ok n)
    (d : String) (h : JsNum) : ∃ t, occupiesRaw d h r = Except.ok t := by
  obtain ⟨date, hd⟩ := get_date_of_time r n hr
  simp only [occupiesRaw, hd, hr]
  split
  · exact ⟨_, rfl⟩
  · exact ⟨_, rfl⟩

theorem occupiesRaw_unparsable (r : Json) (hr : parseIntTime r = Except.ok none)
    (d : String) (h : JsNum) : occupiesRaw d h r = Except.ok false := by
  obtain ⟨date, hd⟩ := get_date_of_time r none hr
  simp only [occupiesRaw, hd, hr, jsStrictEq_nan, ite_self]

theorem isTakenRaw_skip (pre post : List Json) (r : Json)
    (hr : parseIntTime r = Except.ok none) (d : String) (h : JsNum) :
    isTakenRaw (pre ++ r :: post) d h = isTakenRaw (pre ++ post) d h := by
  unfold isTakenRaw
  exact someRaw_skip _ pre post r (occupiesRaw_unparsable r hr d h)

theorem isTakenRaw_ok (rs : List Json) (hrs : ∀ x ∈ rs, ∃ n, parseIntTime x = Except.ok n)
    (d : String) (h : JsNum) : ∃ t, isTakenRaw rs d h = Except.ok t := by
  induction rs with
  | nil => exact ⟨false, rfl⟩
  | cons x rs ih =>
    obtain ⟨n, hn⟩ := hrs x (List.mem_cons_self _ _)
    obtain ⟨t, ht⟩ := occupiesRaw_of_time x n hn d h
    obtain ⟨t2, ht2⟩ := ih (fun y hy => hrs y (List.mem_cons_of_mem _ hy))
    unfold isTakenRaw at ht2 ⊢
    rw [someRaw, ht]
    cases t with
    | true => exact ⟨true, rfl⟩
    | false => exact ⟨t2, ht2⟩

theorem suggestionsRaw_congr (rs1 rs2 : List Json)
    (hT : ∀ d h, isTakenRaw rs1 d h = isTakenRaw rs2 d h) (d : String) (h : JsNum) :
    suggestionsRaw rs1 d h = suggestionsRaw rs2 d h := by
  simp only [suggestionsRaw, hT]

theorem suggestionsRaw_ok (rs : List Json) (hrs : ∀ d h, ∃ t, isTakenRaw rs d h = Except.ok t)
    (d : String) (h : JsNum) : ∃ s, suggestionsRaw rs d h = Except.ok s := by
  obtain ⟨t1, h1⟩ := hrs d (jsAdd h (some 1))
  obtain ⟨t2, h2⟩ := hrs d (jsSub h (some 1))
  simp only [suggestionsRaw, h1, h2]
  exact ⟨_, rfl⟩

/-- Two arrays on which the availability check agrees for every date and hour
give runs that throw alike, leave the same world, and either both leave the
file as it is or both append the same booking. -/
theorem processRaw_congr (o : Oracle) (event : MessageEvent) (w : World)
    (rs1 rs2 : List Json) (hT : ∀ d h, isTakenRaw rs1 d h = isTakenRaw rs2 d h) :
    (processInstagramMessageRaw o event ⟨Json.arr rs1, w⟩).thrown =
      (processInstagramMessageRaw o event ⟨Json.arr rs2, w⟩).thrown ∧
    (processInstagramMessageRaw o event ⟨Json.arr rs1, w⟩).state.world =
      (processInstagramMessageRaw o event ⟨Json.arr rs2, w⟩).state.world ∧
    (((processInstagramMessageRaw o event ⟨Json.arr rs1, w⟩).state.file = Json.arr rs1 ∧
        (processInstagramMessageRaw o event ⟨Json.arr rs2, w⟩).state.file = Json.arr rs2) ∨
      ∃ b,
        (processInstagramMessageRaw o event ⟨Json.arr rs1, w⟩).state.file
          = Json.arr (rs1 ++ [Json.ofBooking b]) ∧
        (processInstagramMessageRaw o event ⟨Json.arr rs2, w⟩).state.file
          = Json.arr (rs2 ++ [Json.ofBooking b])) := by
  obtain ⟨sid, txt⟩ := event
  cases txt with
  | none => exact ⟨rfl, rfl, Or.inl ⟨rfl, rfl⟩⟩
  | some text =>
    by_cases hne : text = ""
    · subst hne
      exact ⟨rfl, rfl, Or.inl ⟨rfl, rfl⟩⟩
    · cases hp : parseBookingRequest o.now o.localDayMs text with
      | none =>
        simp only [processInstagramMessageRaw, hne, if_false, hp]
        simp
      | some i =>
        by_cases hh : jsLt i.hour (some 12) = true ∨ jsGt i.hour (some 22) = true
        · simp only [processInstagramMessageRaw, hne, if_false, hp, hh, if_true]
          simp
        · simp only [processInstagramMessageRaw, hne, if_false, hp, hh, hT,
            suggestionsRaw_congr rs1 rs2 hT]
          cases isTakenRaw rs2 i.dateStr i.hour with
          | error e => simp
          | ok t =>
            cases t with
            | true =>
              cases suggestionsRaw rs2 i.dateStr i.hour with
              | error e => simp
              | ok sugg => simp
            | false => exact ⟨rfl, rfl, Or.inr ⟨_, rfl, rfl⟩⟩

/-- A run on an array whose elements all have a `time` that `parseInt` accepts
does not throw. -/
theorem processRaw_no_throw (o : Oracle) (event : MessageEvent) (w : World)
    (rs : List Json) (hrs : ∀ x ∈ rs, ∃ n, parseIntTime x = Except.ok n) :
    (processInstagramMessageRaw o event ⟨Json.arr rs, w⟩).thrown = none := by
  have hT := isTakenRaw_ok rs hrs
  have hS := suggestionsRaw_ok rs hT
  obtain ⟨sid, txt⟩ := event
  cases txt with
  | none => rfl
  | some text =>
    by_cases hne : text = ""
    · subst hne
      rfl
    · cases hp : parseBookingRequest o.now o.localDayMs text with
      | none => simp only [processInstagramMessageRaw, hne, if_false, hp]
      | some i =>
        by_cases hh : jsLt i.hour (some 12) = true ∨ jsGt i.hour (some 22) = true
        · simp only [processInstagramMessageRaw, hne, if_false, hp, hh, if_true]
        · obtain ⟨t, ht⟩ := hT i.dateStr i.hour
          obtain ⟨sg, hsg⟩ := hS i.dateStr i.hour
          simp only [processInstagramMessageRaw, hne, if_false, hp, hh, ht, hsg]
          cases t <;> rfl

/-! ## C13: records whose time is not a number, on the file as parsed -/

/-- C13 (as amended): an element of the stored array on which `parseInt(b.time)`
returns NaN (its `time` is absent, or a value whose string does not start with
an integer) is skipped. Putting it anywhere into the array, or taking it out,
changes neither the result of the availability check nor the suggestion list,
for every date and hour, nor the run of `processInstagramMessage`: with and
without it the run throws or does not throw alike, leaves the same logs,
replies and trace, and either leaves the file as it is or appends the same
booking. The run completes without throwing when on every other element
`parseInt(b.time)` returns: none is `null` and no `time` fails to convert to a
string. -/
theorem C13_unparsable_time_is_skipped_raw (o : Oracle) (event : MessageEvent) (w : World)
    (pre post : List Json) (r : Json) (hr : parseIntTime r = Except.ok none) :
    (∀ d h, isTakenRaw (pre ++ r :: post) d h = isTakenRaw (pre ++ post) d h) ∧
    (∀ d h, suggestionsRaw (pre ++ r :: post) d h = suggestionsRaw (pre ++ post) d h) ∧
    (processInstagramMessageRaw o event ⟨Json.arr (pre ++ r :: post), w⟩).thrown =
      (processInstagramMessageRaw o event ⟨Json.arr (pre ++ post), w⟩).thrown ∧
    (processInstagramMessageRaw o event ⟨Json.arr (pre ++ r :: post), w⟩).state.world =
      (processInstagramMessageRaw o event ⟨Json.arr (pre ++ post), w⟩).state.world ∧
    (((processInstagramMessageRaw o event ⟨Json.arr (pre ++ r :: post), w⟩).state.file
          = Json.arr (pre ++ r :: post) ∧
        (processInstagramMessageRaw o event ⟨Json.arr (pre ++ post), w⟩).state.file
          = Json.arr (pre ++ post)) ∨
      ∃ b,
        (processInstagramMessageRaw o event ⟨Json.arr (pre ++ r :: post), w⟩).state.file
          = Json.arr ((pre ++ r :: post) ++ [Json.ofBooking b]) ∧
        (processInstagramMessageRaw o event ⟨Json.arr (pre ++ post), w⟩).state.file
          = Json.arr ((pre ++ post) ++ [Json.ofBooking b])) ∧
    ((∀ x ∈ pre ++ post, ∃ n, parseIntTime x = Except.ok n) →
      (processInstagramMessageRaw o event ⟨Json.arr (pre ++ r :: post), w⟩).thrown = none ∧
      (processInstagramMessageRaw o event ⟨Json.arr (pre ++ post), w⟩).thrown = none) := by
  have hT := isTakenRaw_skip pre post r hr
  obtain ⟨c1, c2, c3⟩ := processRaw_congr o event w _ _ hT
  refine ⟨hT, suggestionsRaw_congr _ _ hT, c1, c2, c3, ?_⟩
  intro hwf
  have h2 := processRaw_no_throw o event w _ hwf
  exact ⟨c1.trans h2, h2⟩

/-- Witness of C13: a record with time "soon" between two bookings; "today at
3pm" is rejected with and without it, and nothing is thrown. -/
theorem C13_unparsable_time_is_skipped_raw_witness :
    parseIntTime (Json.ofBooking (sampleBooking "x9" (JsVal.str "soon"))) = Except.ok none ∧
    (processInstagramMessageRaw sampleOracle ⟨"17841400123", some "today at 3pm"⟩
        ⟨Json.arr ([Json.ofBooking (sampleBooking "a1" (JsVal.num 15))] ++
          Json.ofBooking (sampleBooking "x9" (JsVal.str "soon")) ::
          [Json.ofBooking (sampleBooking "a2" (JsVal.str "16"))]), worldWith []⟩).thrown
      = none ∧
    (processInstagramMessageRaw sampleOracle ⟨"17841400123", some "today at 3pm"⟩
        ⟨Json.arr ([Json.ofBooking (sampleBooking "a1" (JsVal.num 15))] ++
          [Json.ofBooking (sampleBooking "a2" (JsVal.str "16"))]), worldWith []⟩).thrown
      = none :=
  ⟨rfl,
   (C13_unparsable_time_is_skipped_raw sampleOracle ⟨"17841400123", some "today at 3pm"⟩
     (worldWith []) [Json.ofBooking (sampleBooking "a1" (JsVal.num 15))]
     [Json.ofBooking (sampleBooking "a2" (JsVal.str "16"))]
     (Json.ofBooking (sampleBooking "x9" (JsVal.str "soon"))) rfl).2.2.2.2.2
     (by
       intro x hx
       simp only [List.singleton_append, List.mem_cons, List.mem_singleton,
         List.not_mem_nil, or_false] at hx
       rcases hx with rfl | rfl
       · exact ⟨_, rfl⟩
       · exact ⟨_, rfl⟩)⟩

/-- Counterexample to C13 as stated. The `time` of `sampleUnconvertible` is an
object with an own property `toString`: it does not parse to an integer, for
`parseInt` throws a TypeError on it. On the empty array "today at 3pm" is
confirmed; with that record added the check throws, nothing is booked and no
reply is sent. And a record with time "soon" does not make the decision
complete for every collection: beside a `null` element the check throws on
reading `b.date`. -/
theorem C13_check_throws :
    parseIntTime sampleUnconvertible = Except.error JsError.typeError ∧
    (processInstagramMessageRaw sampleOracle ⟨"17841400123", some "today at 3pm"⟩
        ⟨Json.arr [], worldWith []⟩).thrown = none ∧
    (processInstagramMessageRaw sampleOracle ⟨"17841400123", some "today at 3pm"⟩
        ⟨Json.arr [], worldWith []⟩).state.file =
      Json.arr [Json.ofBooking
        (newBooking sampleOracle "17841400123" "2024-01-10" (some 15))] ∧
    (processInstagramMessageRaw sampleOracle ⟨"17841400123", some "today at 3pm"⟩
        ⟨Json.arr [sampleUnconvertible], worldWith []⟩).thrown
      = some JsError.typeError ∧
    (processInstagramMessageRaw sampleOracle ⟨"17841400123", some "today at 3pm"⟩
        ⟨Json.arr [sampleUnconvertible], worldWith []⟩).state.file =
      Json.arr [sampleUnconvertible] ∧
    repliesOf (processInstagramMessageRaw sampleOracle
        ⟨"17841400123", some "today at 3pm"⟩
        ⟨Json.arr [sampleUnconvertible], worldWith []⟩).state.world.trace = [] ∧
    parseIntTime (Json.obj [("date", Json.str (utf16 "2024-01-10")),
        ("time", Json.str (utf16 "soon"))]) = Except.ok none ∧
    (processInstagramMessageRaw sampleOracle ⟨"17841400123", some "today at 3pm"⟩
        ⟨Json.arr [Json.null, Json.obj [("date", Json.str (utf16 "2024-01-10")),
          ("time", Json.str (utf16 "soon"))]], worldWith []⟩).thrown
      = some JsError.typeError := by
  refine ⟨rfl, by decide, rfl, by decide, rfl, by decide, rfl, by decide⟩

end BarberBot
